import Mathlib

/-!
# Chat history loading (chat_history.go)

A shallow embedding of `src/chat_history.go` of adarosci/go-whatsapp and the
properties of its page decoder, message locator, media resolver, single page
loader and the two history crawlers.

Modelling conventions.

* Go values that may be `nil` (pointers, maps, interfaces, slices, errors) are
  `Option`s.  A run-time panic (failed type assertion, nil dereference, send on
  a closed channel) is an explicit `Panic` result.
* Every effect the functions have on the outside world is recorded, in program
  order, in a trace of `Action`s: queries, handler invocations, media
  downloads, sleeps and the handshake send.  `log.Println` output is not
  recorded; it has no influence on control flow.
* The server is a deterministic oracle with a state of an arbitrary type `σ`;
  `wac.query` and the `Download` methods step that state.
* The receiver `wac` is a non-nil connection and the elements of dynamic type
  `*proto.WebMessageInfo` of a content list are non-nil pointers (they come out
  of the protobuf unmarshaller).
* Unbounded `for` loops are run with fuel; running out of fuel is a result of
  its own (`LoopEnd.outOfFuel`), distinct from returning.
-/

namespace Whatsapp

/-! ## Data model -/

/-- Modelled from the spec: Go `error` values, the spec's QueryError, which
"distinguishes at least not found / ambiguous from all other failures".
`ErrServerRespondedWith404` is the package-level sentinel (declared elsewhere
in the package, not under src/) compared by identity at line 236; `new msg` is
`errors.New(msg)`; `other` stands for every other error value. -/
inductive GoError where
  | ErrServerRespondedWith404
  | new (msg : String)
  | other (code : Nat)
  deriving DecidableEq, Repr

/-- Run-time panics the embedded code can raise. -/
inductive Panic where
  | interfaceConversion
  | nilDereference
  | indexOutOfRange
  | sendOnClosedChannel
  deriving DecidableEq, Repr

/-- Modelled from the spec: `proto.MessageKey` (declared in binary/proto, not
under src/).  Only the two fields the code reads, both protobuf optional
fields, i.e. pointers. -/
structure MessageKey where
  Id : Option String
  FromMe : Option Bool
  deriving DecidableEq, Repr

/-- Modelled from the spec: `proto.WebMessageInfo` (declared in binary/proto,
not under src/), the spec's MessageRecord.  `Key` is a pointer; `Body` stands
for the remaining, uninterpreted fields. -/
structure WebMessageInfo where
  Key : Option MessageKey
  Body : String
  deriving DecidableEq, Repr

/-- One element of a `[]interface{}` content list, by dynamic type. -/
inductive Entry where
  | webMessageInfo (m : WebMessageInfo)
  | other (tag : String)
  deriving DecidableEq, Repr

/-- A non-nil value of `Node.Content` (an `interface{}`), by dynamic type:
either a `[]interface{}` or anything else (string, byte slice, node list). -/
inductive NodeContent where
  | list (entries : List Entry)
  | other (tag : String)
  deriving DecidableEq, Repr

/-- Modelled from the spec: `binary.Node` (declared in binary/, not under
src/): a description, an attribute map that may be nil, a content that may be
nil. -/
structure Node where
  Description : String
  Attributes : Option (List (String × String))
  Content : Option NodeContent
  deriving DecidableEq, Repr

/-- The five downloadable message types of the type switch at lines 83-97. -/
inductive MediaKind where
  | image
  | video
  | audio
  | document
  | sticker
  deriving DecidableEq, Repr

/-- Modelled from the spec: the TypedMessage variants, i.e. the dynamic type of
what `ParseProtoMessage` returns (the message types are declared elsewhere in
the package, not under src/): an error, one of the five media message types
with an uninterpreted payload, or any other type (text, location, ...). -/
inductive ParsedMessage where
  | error (e : GoError)
  | ImageMessage (m : String)
  | VideoMessage (m : String)
  | AudioMessage (m : String)
  | DocumentMessage (m : String)
  | StickerMessage (m : String)
  | other (tag : String)
  deriving DecidableEq, Repr

/-- Modelled from the spec: a registered receiver (the `Handler` interface,
declared elsewhere in the package, not under src/), identified by a name. -/
structure Handler where
  name : String
  deriving DecidableEq, Repr

/-- Modelled from the spec: what a handler list receives, "either an error
value, a TypedMessage, or a raw MessageRecord".  It is the argument of one
`handleWithCustomHandlers` call, by call site: an error, the result of
`ParseProtoMessage`, or the raw record. -/
inductive Event where
  | error (e : GoError)
  | typed (p : ParsedMessage)
  | raw (m : WebMessageInfo)
  deriving DecidableEq, Repr

/-- The eight arguments of `wac.query`. -/
structure QueryArgs where
  t : String
  jid : String
  messageId : String
  kind : String
  owner : String
  search : String
  count : Int
  page : Int
  deriving DecidableEq, Repr

/-- A `time.Duration`, in nanoseconds. -/
abbrev Duration := Int

/-- The constant `time.Second`. -/
def Second : Duration := 1000000000

/-- Observable effects, in program order.  `handle e hs` is one call
`wac.handleWithCustomHandlers(e, hs)`: the handlers are receivers only, the
call returns and has no influence on later query answers. -/
inductive Action where
  | query (q : QueryArgs)
  | handle (e : Event) (handlers : List Handler)
  | download (kind : MediaKind) (m : String)
  | sleep (d : Duration)
  | send
  deriving DecidableEq, Repr

/-- A byte slice. -/
abbrev Bytes := List Nat

/-- The external collaborators of the file: the query capability of the
connection, the `Download` method of the media message types and
`ParseProtoMessage`.  None of them is under src/; they are parameters. -/
structure Env (σ : Type) where
  query : σ → QueryArgs → Except GoError (Option Node) × σ
  Download : σ → MediaKind → String → (Option Bytes × Option GoError) × σ
  ParseProtoMessage : WebMessageInfo → ParsedMessage

/-- Modelled from the spec: the part of `Conn` (declared elsewhere in the
package, not under src/) the file reads, the default handler list. -/
structure Conn where
  handler : List Handler

/-- Result of a function that returns: its value or a panic, the actions it
performed and the server state it leaves. -/
structure Outcome (σ α : Type) where
  result : Except Panic α
  trace : List Action
  world : σ

/-- The queries of a trace, in order. -/
def queriesOf : List Action → List QueryArgs
  | [] => []
  | .query q :: tr => q :: queriesOf tr
  | _ :: tr => queriesOf tr

/-- The handler invocations of a trace, in order. -/
def eventsOf : List Action → List Event
  | [] => []
  | .handle e _ :: tr => e :: eventsOf tr
  | _ :: tr => eventsOf tr

/-- The invocations of a `Download` method in a trace, in order. -/
def downloadsOf : List Action → List (MediaKind × String)
  | [] => []
  | .download kind m :: tr => (kind, m) :: downloadsOf tr
  | _ :: tr => downloadsOf tr

/-- The function `strconv.FormatBool`. -/
def FormatBool (b : Bool) : String :=
  if b then "true" else "false"

/-- The type `MessageOffsetInfo` of lines 13-16 (not used by the functions of
the file). -/
structure MessageOffsetInfo where
  FirstMessageId : String
  FirstMessageOwner : Bool
  deriving DecidableEq, Repr

/-! ## decodeMessages (lines 18-36) -/

/-- The body of the `for ... range` loop at lines 26-33: the type switch
appends a message record and skips anything else. -/
def decodeMessages.body (messages : List WebMessageInfo) (msg : Entry) : List WebMessageInfo :=
  match msg with
  | .webMessageInfo m => messages ++ [m]
  | .other _ => messages

/-- The function `decodeMessages`.  The unchecked type assertion
`n.Content.([]interface{})` of line 26 panics on any other dynamic type. -/
def decodeMessages (n : Option Node) : Except Panic (List WebMessageInfo) :=
  match n with
  | none => .ok []
  | some n =>
    match n.Attributes, n.Content with
    | none, _ => .ok []
    | some _, none => .ok []
    | some _, some (.other _) => .error .interfaceConversion
    | some _, some (.list entries) => .ok (entries.foldl decodeMessages.body [])

/-- The message record held by a content entry, if it is one. -/
def Entry.record? : Entry → Option WebMessageInfo
  | .webMessageInfo m => some m
  | .other _ => none

/-! ## Shared plumbing -/

/-- The expression `*msg.Key.Id`: the id a record carries, `none` when `Key`
or `Id` is a nil pointer (the dereference then panics). -/
def WebMessageInfo.keyId? (msg : WebMessageInfo) : Option String :=
  match msg.Key with
  | none => none
  | some k => k.Id

/-- The expression `k.FromMe != nil && *k.FromMe`. -/
def MessageKey.fromMe (k : MessageKey) : Bool :=
  match k.FromMe with
  | none => false
  | some b => b

/-- The dispatch loop shared by the three loaders (lines 133-136, 174-177,
262-265): for each record, the typed message and then the raw record. -/
def dispatchMessages {σ : Type} (env : Env σ) (handlers : List Handler) :
    List WebMessageInfo → List Action
  | [] => []
  | msg :: rest =>
    .handle (.typed (env.ParseProtoMessage msg)) handlers ::
      .handle (.raw msg) handlers :: dispatchMessages env handlers rest

/-- Put the actions already performed in front of an outcome. -/
def Outcome.after {σ α : Type} (tr : List Action) (o : Outcome σ α) : Outcome σ α :=
  { o with trace := tr ++ o.trace }

/-- The single-item "message" query of lines 41 and 65. -/
def firstQuery (jid messageID : String) : QueryArgs :=
  ⟨"message", jid, messageID, "", "false", "", 1, 0⟩

/-- The one-record "after" query of lines 47, 49, 71 and 73. -/
def afterQuery (jid id owner : String) : QueryArgs :=
  ⟨"message", jid, id, "after", owner, "", 1, 0⟩

/-! ## LoadMessageByID (lines 39-60) -/

/-- The outer `for ... range` loop of lines 46-57 over the first page. -/
def LoadMessageByID.loop {σ : Type} (env : Env σ) (jid : String) :
    List WebMessageInfo → σ → Outcome σ (Option WebMessageInfo)
  | [], w => ⟨.ok none, [], w⟩
  | msg :: rest, w =>
    match msg.keyId? with
    | none => ⟨.error .nilDereference, [], w⟩
    | some id =>
      let attempt : Except GoError (Option Node) × List Action × σ :=
        match env.query w (afterQuery jid id "true") with
        | (.ok node, w1) => (.ok node, [.query (afterQuery jid id "true")], w1)
        | (.error _, w1) =>
          match env.query w1 (afterQuery jid id "false") with
          | (.ok node, w2) =>
            (.ok node,
              [.query (afterQuery jid id "true"), .query (afterQuery jid id "false")], w2)
          | (.error err, w2) =>
            (.error err,
              [.query (afterQuery jid id "true"), .query (afterQuery jid id "false")], w2)
      match attempt with
      | (.error _, tr, w2) => ⟨.ok none, tr, w2⟩
      | (.ok node, tr, w2) =>
        match decodeMessages node with
        | .error p => ⟨.error p, tr, w2⟩
        | .ok [] => (LoadMessageByID.loop env jid rest w2).after tr
        | .ok (msg1 :: _) => ⟨.ok (some msg1), tr, w2⟩

/-- The method `Conn.LoadMessageByID`; `none` is the nil result. -/
def LoadMessageByID {σ : Type} (env : Env σ) (jid messageID : String) (w : σ) :
    Outcome σ (Option WebMessageInfo) :=
  match env.query w (firstQuery jid messageID) with
  | (.error _, w1) => ⟨.ok none, [.query (firstQuery jid messageID)], w1⟩
  | (.ok node, w1) =>
    match decodeMessages node with
    | .error p => ⟨.error p, [.query (firstQuery jid messageID)], w1⟩
    | .ok msgs =>
      (LoadMessageByID.loop env jid msgs w1).after [.query (firstQuery jid messageID)]

/-! ## DownloadMediaMessage (lines 63-105) -/

/-- The error built at lines 99 and 104. -/
def notMessageDownload : GoError := .new "not message download"

/-- The type switch of lines 80-100 on the parsed message. -/
def DownloadMediaMessage.switch {σ : Type} (env : Env σ) (message : ParsedMessage) (w : σ) :
    Outcome σ (Option Bytes × Option GoError) :=
  match message with
  | .error m => ⟨.ok (none, some m), [], w⟩
  | .ImageMessage image =>
    ⟨.ok (env.Download w .image image).1, [.download .image image],
      (env.Download w .image image).2⟩
  | .VideoMessage video =>
    ⟨.ok (env.Download w .video video).1, [.download .video video],
      (env.Download w .video video).2⟩
  | .AudioMessage audio =>
    ⟨.ok (env.Download w .audio audio).1, [.download .audio audio],
      (env.Download w .audio audio).2⟩
  | .DocumentMessage document =>
    ⟨.ok (env.Download w .document document).1, [.download .document document],
      (env.Download w .document document).2⟩
  | .StickerMessage sticker =>
    ⟨.ok (env.Download w .sticker sticker).1, [.download .sticker sticker],
      (env.Download w .sticker sticker).2⟩
  | .other _ => ⟨.ok (none, some notMessageDownload), [], w⟩

/-- The outer `for ... range` loop of lines 70-102 over the first page. -/
def DownloadMediaMessage.loop {σ : Type} (env : Env σ) (jid : String) :
    List WebMessageInfo → σ → Outcome σ (Option Bytes × Option GoError)
  | [], w => ⟨.ok (none, some notMessageDownload), [], w⟩
  | msg :: rest, w =>
    match msg.keyId? with
    | none => ⟨.error .nilDereference, [], w⟩
    | some id =>
      let attempt : Except GoError (Option Node) × List Action × σ :=
        match env.query w (afterQuery jid id "true") with
        | (.ok node, w1) => (.ok node, [.query (afterQuery jid id "true")], w1)
        | (.error _, w1) =>
          match env.query w1 (afterQuery jid id "false") with
          | (.ok node, w2) =>
            (.ok node,
              [.query (afterQuery jid id "true"), .query (afterQuery jid id "false")], w2)
          | (.error err, w2) =>
            (.error err,
              [.query (afterQuery jid id "true"), .query (afterQuery jid id "false")], w2)
      match attempt with
      | (.error err, tr, w2) => ⟨.ok (none, some err), tr, w2⟩
      | (.ok node, tr, w2) =>
        match decodeMessages node with
        | .error p => ⟨.error p, tr, w2⟩
        | .ok [] => (DownloadMediaMessage.loop env jid rest w2).after tr
        | .ok (msg1 :: _) =>
          (DownloadMediaMessage.switch env (env.ParseProtoMessage msg1) w2).after tr

/-- The method `Conn.DownloadMediaMessage`; the result is the pair
`([]byte, error)`. -/
def DownloadMediaMessage {σ : Type} (env : Env σ) (jid messageID : String) (w : σ) :
    Outcome σ (Option Bytes × Option GoError) :=
  match env.query w (firstQuery jid messageID) with
  | (.error err, w1) => ⟨.ok (none, some err), [.query (firstQuery jid messageID)], w1⟩
  | (.ok node, w1) =>
    match decodeMessages node with
    | .error p => ⟨.error p, [.query (firstQuery jid messageID)], w1⟩
    | .ok msgs =>
      (DownloadMediaMessage.loop env jid msgs w1).after [.query (firstQuery jid messageID)]

/-! ## LoadChatMessages (lines 111-139) -/

/-- The paging query of lines 125, 166 and 230. -/
def pageQuery (jid messageId kind : String) (owner : Bool) (count : Int) : QueryArgs :=
  ⟨"message", jid, messageId, kind, FormatBool owner, "", count, 0⟩

/-- The method `Conn.LoadChatMessages`; the value is the returned `error`. -/
def LoadChatMessages {σ : Type} (env : Env σ) (wac : Conn) (jid : String) (count : Int)
    (messageId : String) (owner after : Bool) (handlers : Option (List Handler)) (w : σ) :
    Outcome σ (Option GoError) :=
  if count ≤ 0 then ⟨.ok none, [], w⟩
  else
    let handlers := match handlers with
      | none => wac.handler
      | some hs => hs
    let kind := if after then "after" else "before"
    match env.query w (pageQuery jid messageId kind owner count) with
    | (.error err, w1) =>
      ⟨.ok (some err),
        [.query (pageQuery jid messageId kind owner count), .handle (.error err) handlers], w1⟩
    | (.ok node, w1) =>
      match decodeMessages node with
      | .error p => ⟨.error p, [.query (pageQuery jid messageId kind owner count)], w1⟩
      | .ok msgs =>
        ⟨.ok none,
          .query (pageQuery jid messageId kind owner count) :: dispatchMessages env handlers msgs,
          w1⟩

/-! ## Loops with fuel -/

/-- How one iteration of a `for` loop leaves: around again, out of the loop
(`break` or `return`), or by a panic.  Each carries the loop variables. -/
inductive Flow (S : Type) where
  | next (s : S)
  | stop (s : S)
  | panic (p : Panic) (s : S)

/-- Result of one loop iteration. -/
structure Iter (σ S : Type) where
  flow : Flow S
  trace : List Action
  world : σ

/-- How a fuelled run of a loop ended. -/
inductive LoopEnd where
  | returned
  | panicked (p : Panic)
  | outOfFuel
  deriving DecidableEq, Repr

/-- Result of a fuelled run of a loop: how it ended, the loop variables at
that point, the actions performed and the server state. -/
structure LoopOutcome (σ S : Type) where
  status : LoopEnd
  final : S
  trace : List Action
  world : σ

/-- Run a loop body for at most the given number of iterations. -/
def runLoop {σ S : Type} (body : S → σ → Iter σ S) : Nat → S → σ → LoopOutcome σ S
  | 0, s, w => ⟨.outOfFuel, s, [], w⟩
  | fuel + 1, s, w =>
    match body s w with
    | ⟨.next s1, tr, w1⟩ =>
      match runLoop body fuel s1 w1 with
      | ⟨st, s2, tr2, w2⟩ => ⟨st, s2, tr ++ tr2, w2⟩
    | ⟨.stop s1, tr, w1⟩ => ⟨.returned, s1, tr, w1⟩
    | ⟨.panic p s1, tr, w1⟩ => ⟨.panicked p, s1, tr, w1⟩

/-! ## LoadFullChatHistoryAfter (lines 215-282) -/

/-- The loop variables of `LoadFullChatHistoryAfter`. -/
structure AfterState where
  messageId : String
  msgOwner : Bool
  prevNotFound : Bool
  deriving DecidableEq, Repr

/-- One iteration of the `for` loop of lines 229-280. -/
def LoadFullChatHistoryAfter.body {σ : Type} (env : Env σ) (jid : String) (chunkSize : Int)
    (pauseBetweenQueries : Duration) (handlers : List Handler) (s : AfterState) (w : σ) :
    Iter σ AfterState :=
  match env.query w (pageQuery jid s.messageId "after" s.msgOwner chunkSize) with
  | (.error err, w1) =>
    if err = .ErrServerRespondedWith404 then
      if s.prevNotFound then
        ⟨.stop s, [.query (pageQuery jid s.messageId "after" s.msgOwner chunkSize)], w1⟩
      else if s.msgOwner then
        ⟨.next { s with prevNotFound := true, msgOwner := false },
          [.query (pageQuery jid s.messageId "after" s.msgOwner chunkSize), .sleep Second], w1⟩
      else
        -- line 244 sets prevNotFound, control falls through to lines 258 and 276
        ⟨.next { s with prevNotFound := false },
          [.query (pageQuery jid s.messageId "after" s.msgOwner chunkSize),
            .handle (.error err) handlers, .sleep pauseBetweenQueries], w1⟩
    else
      ⟨.next { s with prevNotFound := false },
        [.query (pageQuery jid s.messageId "after" s.msgOwner chunkSize),
          .handle (.error err) handlers, .sleep pauseBetweenQueries], w1⟩
  | (.ok node, w1) =>
    match decodeMessages node with
    | .error p =>
      ⟨.panic p s, [.query (pageQuery jid s.messageId "after" s.msgOwner chunkSize)], w1⟩
    | .ok msgs =>
      if (msgs.length : Int) ≠ chunkSize then
        ⟨.stop s,
          .query (pageQuery jid s.messageId "after" s.msgOwner chunkSize) ::
            dispatchMessages env handlers msgs, w1⟩
      else
        match msgs with
        | [] =>
          ⟨.panic .indexOutOfRange s,
            .query (pageQuery jid s.messageId "after" s.msgOwner chunkSize) ::
              dispatchMessages env handlers msgs, w1⟩
        | m0 :: _ =>
          match m0.Key with
          | none =>
            ⟨.panic .nilDereference s,
              .query (pageQuery jid s.messageId "after" s.msgOwner chunkSize) ::
                dispatchMessages env handlers msgs, w1⟩
          | some k =>
            match k.Id with
            | none =>
              ⟨.panic .nilDereference s,
                .query (pageQuery jid s.messageId "after" s.msgOwner chunkSize) ::
                  dispatchMessages env handlers msgs, w1⟩
            | some id =>
              ⟨.next ⟨id, k.fromMe, false⟩,
                .query (pageQuery jid s.messageId "after" s.msgOwner chunkSize) ::
                  (dispatchMessages env handlers msgs ++ [.sleep pauseBetweenQueries]), w1⟩

/-- The method `Conn.LoadFullChatHistoryAfter`, its loop run with fuel. -/
def LoadFullChatHistoryAfter {σ : Type} (env : Env σ) (wac : Conn) (fuel : Nat) (jid : String)
    (messageId : String) (chunkSize : Int) (pauseBetweenQueries : Duration)
    (handlers : Option (List Handler)) (w : σ) : LoopOutcome σ AfterState :=
  if chunkSize ≤ 0 then ⟨.returned, ⟨messageId, true, false⟩, [], w⟩
  else
    let handlers := match handlers with
      | none => wac.handler
      | some hs => hs
    runLoop (LoadFullChatHistoryAfter.body env jid chunkSize pauseBetweenQueries handlers)
      fuel ⟨messageId, true, false⟩ w

/-! ## LoadFullChatHistory (lines 144-211)

The function starts a goroutine (the crawl task, lines 160-191) and waits in a
`select` for the task's send on `c` or for a 30 second timer.  The two threads
share `quit` and `c`.  They are interleaved sequentially consistently: of the
caller only its progress through lines 195-210 matters, and a schedule tells
how many steps the caller has made when the task reaches each of its
synchronisation points (a read of `quit`, a send on `c`).  The trace records a
send when the caller receives it; an execution of line 179 that nobody
receives is the panic `sendOnClosedChannel`.  A panic of the crawl task kills
the process, so a call whose caller had not returned by then never returns
(`callResult`). -/

/-- The error built at line 202. -/
def timeoutChatFull : GoError := .new "timeout chat full"

/-- Progress of the calling goroutine: blocked in the `select` of line 195;
past the `select` with the error it will return; past `quit = true`
(line 206); past `close(c)` (line 208), i.e. returned. -/
inductive Caller where
  | selecting
  | woken (err : Option GoError)
  | quitSet (err : Option GoError)
  | returned (err : Option GoError)
  deriving DecidableEq, Repr

/-- One step of the caller on its own.  For a caller blocked in `select` that
is the 30 second timer firing. -/
def Caller.step : Caller → Caller
  | .selecting => .woken (some timeoutChatFull)
  | .woken err => .quitSet err
  | .quitSet err => .returned err
  | .returned err => .returned err

/-- Several steps of the caller on its own. -/
def Caller.advance : Nat → Caller → Caller
  | 0, c => c
  | n + 1, c => Caller.advance n c.step

/-- The value of the shared variable `quit`. -/
def Caller.quit : Caller → Bool
  | .selecting => false
  | .woken _ => false
  | .quitSet _ => true
  | .returned _ => true

/-- The error the caller returns once it has run to line 210.  A caller still
in `select` when the task is over gets no send any more; its timer fires. -/
def Caller.result : Caller → Option GoError
  | .selecting => some timeoutChatFull
  | .woken err => err
  | .quitSet err => err
  | .returned err => err

/-- What the call of `LoadFullChatHistory` gives its caller, from how the crawl
task ended and where the caller stood then.  A panic of the crawl goroutine is
not recovered and kills the process: the call has returned its error only if
the caller was already past line 208; otherwise it never returns and the
panic is all there is.  (A send that panics because the caller closes `c` is
raised by line 208 itself, the statement before the `return`; the caller
counts as returned.) -/
def callResult : LoopEnd → Caller → Except Panic (Option GoError)
  | .panicked _, .returned err => .ok err
  | .panicked p, _ => .error p
  | _, c => .ok c.result

/-- The variables of the crawl task: the two captured cursor variables, the
progress of the caller and the number of synchronisation points passed. -/
structure CrawlState where
  beforeMsg : String
  beforeMsgIsOwner : Bool
  caller : Caller
  sync : Nat
  deriving DecidableEq, Repr

/-- One iteration of the `for` loop of the crawl task, lines 161-190.  A send
on `c` is taken by a caller blocked in `select`; with the caller past the
`select` nobody receives, and the send panics at the latest when the caller
closes `c`. -/
def LoadFullChatHistory.body {σ : Type} (env : Env σ) (sched : Nat → Nat) (jid : String)
    (chunkSize : Int) (pauseBetweenQueries : Duration) (handlers : List Handler)
    (s : CrawlState) (w : σ) : Iter σ CrawlState :=
  if (s.caller.advance (sched s.sync)).quit then
    ⟨.stop { s with caller := s.caller.advance (sched s.sync), sync := s.sync + 1 }, [], w⟩
  else
    match env.query w (pageQuery jid s.beforeMsg "before" s.beforeMsgIsOwner chunkSize) with
    | (.error err, w1) =>
      ⟨.next { s with caller := s.caller.advance (sched s.sync), sync := s.sync + 1 },
        [.query (pageQuery jid s.beforeMsg "before" s.beforeMsgIsOwner chunkSize),
          .handle (.error err) handlers, .sleep pauseBetweenQueries], w1⟩
    | (.ok node, w1) =>
      match decodeMessages node with
      | .error p =>
        ⟨.panic p { s with caller := s.caller.advance (sched s.sync), sync := s.sync + 1 },
          [.query (pageQuery jid s.beforeMsg "before" s.beforeMsgIsOwner chunkSize)], w1⟩
      | .ok msgs =>
        match (s.caller.advance (sched s.sync)).advance (sched (s.sync + 1)) with
        | .selecting =>
          match msgs with
          | [] =>
            ⟨.stop { s with caller := .woken none, sync := s.sync + 2 },
              .query (pageQuery jid s.beforeMsg "before" s.beforeMsgIsOwner chunkSize) ::
                (dispatchMessages env handlers msgs ++ [.send]), w1⟩
          | m0 :: _ =>
            match m0.Key with
            | none =>
              ⟨.panic .nilDereference { s with caller := .woken none, sync := s.sync + 2 },
                .query (pageQuery jid s.beforeMsg "before" s.beforeMsgIsOwner chunkSize) ::
                  (dispatchMessages env handlers msgs ++ [.send]), w1⟩
            | some k =>
              match k.Id with
              | none =>
                ⟨.panic .nilDereference { s with caller := .woken none, sync := s.sync + 2 },
                  .query (pageQuery jid s.beforeMsg "before" s.beforeMsgIsOwner chunkSize) ::
                    (dispatchMessages env handlers msgs ++ [.send]), w1⟩
              | some id =>
                ⟨.next ⟨id, k.fromMe, .woken none, s.sync + 2⟩,
                  .query (pageQuery jid s.beforeMsg "before" s.beforeMsgIsOwner chunkSize) ::
                    (dispatchMessages env handlers msgs ++
                      [.send, .sleep pauseBetweenQueries]), w1⟩
        | c1 =>
          ⟨.panic .sendOnClosedChannel
              { s with caller := .returned c1.result, sync := s.sync + 2 },
            .query (pageQuery jid s.beforeMsg "before" s.beforeMsgIsOwner chunkSize) ::
              dispatchMessages env handlers msgs, w1⟩

/-- Result of `LoadFullChatHistory`: the error returned to the caller, or the
panic that killed the process before the call returned; the actions
performed, the server state, and how the crawl task ended with its variables
(`none` when no task was started).  When the task ran out of fuel with the
caller still waiting, `err` is what the caller gets if no later send arrives
before the timer fires. -/
structure FullHistoryOutcome (σ : Type) where
  err : Except Panic (Option GoError)
  trace : List Action
  world : σ
  task : Option (LoopEnd × CrawlState)

/-- The method `Conn.LoadFullChatHistory`, the loop of its crawl task run with
fuel under the schedule `sched`. -/
def LoadFullChatHistory {σ : Type} (env : Env σ) (wac : Conn) (sched : Nat → Nat) (fuel : Nat)
    (jid : String) (chunkSize : Int) (pauseBetweenQueries : Duration)
    (handlers : Option (List Handler)) (w : σ) : FullHistoryOutcome σ :=
  if chunkSize ≤ 0 then ⟨.ok none, [], w, none⟩
  else
    let handlers := match handlers with
      | none => wac.handler
      | some hs => hs
    match runLoop (LoadFullChatHistory.body env sched jid chunkSize pauseBetweenQueries handlers)
        fuel ⟨"", true, .selecting, 0⟩ w with
    | ⟨st, s, tr, w1⟩ => ⟨callResult st s.caller, tr, w1, some (st, s)⟩

/-! ## Concrete inputs -/

/-- A record with the given id, not sent by the owner. -/
def record (id : String) : WebMessageInfo :=
  ⟨some ⟨some id, some false⟩, id⟩

/-- A response node whose content list holds exactly the given records. -/
def pageNode (msgs : List WebMessageInfo) : Node :=
  ⟨"response", some [], some (.list (msgs.map Entry.webMessageInfo))⟩

/-- A connection with one default handler. -/
def sampleConn : Conn :=
  ⟨[⟨"default"⟩]⟩

/-- The page of the scroll scenario: ids m5, m4, m3, m2, m1. -/
def scrollPage : List WebMessageInfo :=
  [record "m5", record "m4", record "m3", record "m2", record "m1"]

/-- A stateless server that answers every query with the scroll page; every
record parses to a text message. -/
def scrollEnv : Env Unit where
  query := fun w _ => (.ok (some (pageNode scrollPage)), w)
  Download := fun w _ _ => ((none, some (.other 0)), w)
  ParseProtoMessage := fun m => .other m.Body

/-- A node with attributes whose content is a string. -/
def stringNode : Node :=
  ⟨"response", some [], some (.other "string")⟩

/-- A record with id m1 whose key has no own-message flag. -/
def unflaggedRecord : WebMessageInfo :=
  ⟨some ⟨some "m1", none⟩, "m1"⟩

/-- A stateless server that knows the message id "start", answers a query
anchored there with the one record m1, and answers every other query with the
404 error. -/
def stuckEnv : Env Unit where
  query := fun w q =>
    if q.messageId = "start" then (.ok (some (pageNode [unflaggedRecord])), w)
    else (.error .ErrServerRespondedWith404, w)
  Download := fun w _ _ => ((none, some (.other 0)), w)
  ParseProtoMessage := fun m => .other m.Body

/-- A stateless server with two records of history: the query from the most
recent message returns m2, m1 and every other query an empty page. -/
def backfillEnv : Env Unit where
  query := fun w q =>
    if q.messageId = "" then (.ok (some (pageNode [record "m2", record "m1"])), w)
    else (.ok (some (pageNode [])), w)
  Download := fun w _ _ => ((none, some (.other 0)), w)
  ParseProtoMessage := fun m => .other m.Body

/-- Spec, MediaResolver: the fetch-bytes capability of a typed message.  Only
Image, Video, Audio, Document and Sticker expose one. -/
def ParsedMessage.fetchBytes? : ParsedMessage → Option (MediaKind × String)
  | .ImageMessage m => some (.image, m)
  | .VideoMessage m => some (.video, m)
  | .AudioMessage m => some (.audio, m)
  | .DocumentMessage m => some (.document, m)
  | .StickerMessage m => some (.sticker, m)
  | .error _ => none
  | .other _ => none

/-- Spec, ResolveDownloadableMedia after the conversion: if conversion itself
failed, surface that as the error; if the variant has the fetch-bytes
capability, invoke it and return its result verbatim; any other variant yields
the not-downloadable error. -/
def specResolve {σ : Type} (env : Env σ) (t : ParsedMessage) (w : σ) :
    Option Bytes × Option GoError :=
  match t with
  | .error e => (none, some e)
  | t =>
    match t.fetchBytes? with
    | some (kind, m) => (env.Download w kind m).1
    | none => (none, some notMessageDownload)

/-- A stateless server for locating a message: the single-item query returns
the record x; the "after" query fails with the owner flag "true" and returns
the record y with the owner flag "false".  Every record parses to an image and
every download yields three bytes. -/
def locateEnv : Env Unit where
  query := fun w q =>
    if q.kind = "" then (.ok (some (pageNode [record "x"])), w)
    else if q.owner = "true" then (.error (.other 7), w)
    else (.ok (some (pageNode [record "y"])), w)
  Download := fun w _ _ => ((some [1, 2, 3], none), w)
  ParseProtoMessage := fun m => .ImageMessage m.Body

/-! ## Observations on traces and loop states -/

/-- The loop variables an iteration leaves behind. -/
def Flow.state {S : Type} : Flow S → S
  | .next s => s
  | .stop s => s
  | .panic _ s => s

/-- What a reader of a trace knows of the cursor: element 0 of the most
recently consumed non-empty page, if any, and whether the last query has not
yet been followed by a record. -/
structure Scan where
  last : Option WebMessageInfo
  fresh : Bool
  deriving DecidableEq, Repr

/-- Reading one action: a query opens a page; the first raw record dispatched
after a query is element 0 of that page. -/
def scanStep (st : Scan) : Action → Scan
  | .query _ => ⟨st.last, true⟩
  | .handle (.raw m) _ => if st.fresh then ⟨some m, false⟩ else st
  | _ => st

/-- A query fits when no non-empty page has been consumed yet or its anchor id
is the id of element 0 of the most recently consumed non-empty page. -/
def queryFits (st : Scan) : Action → Bool
  | .query q =>
    match st.last with
    | none => true
    | some m => decide (m.keyId? = some q.messageId)
  | _ => true

/-- The cursor invariant, read off a trace: every query fits. -/
def cursorOk (st : Scan) : List Action → Bool
  | [] => true
  | a :: tr => queryFits st a && cursorOk (scanStep st a) tr

/-- The reader's knowledge after a whole trace. -/
def scan (st : Scan) : List Action → Scan
  | [] => st
  | a :: tr => scan (scanStep st a) tr

/-! ## Further concrete inputs -/

/-- A stateless server on which every query fails with a generic error. -/
def failingEnv : Env Unit where
  query := fun w _ => (.error (.other 7), w)
  Download := fun w _ _ => ((none, some (.other 0)), w)
  ParseProtoMessage := fun m => .other m.Body

/-- A stateless server that answers every query with the 404 error. -/
def notFoundEnv : Env Unit where
  query := fun w _ => (.error .ErrServerRespondedWith404, w)
  Download := fun w _ _ => ((none, some (.other 0)), w)
  ParseProtoMessage := fun m => .other m.Body

/-- A stateless server without history: every query returns an empty page. -/
def emptyEnv : Env Unit where
  query := fun w _ => (.ok (some (pageNode [])), w)
  Download := fun w _ _ => ((none, some (.other 0)), w)
  ParseProtoMessage := fun m => .other m.Body

/-- A stateless server with four records of history: the query from the most
recent message returns m4, m3, the query anchored at m4 returns m2, m1, and
every other query an empty page. -/
def twoPageEnv : Env Unit where
  query := fun w q =>
    if q.messageId = "" then (.ok (some (pageNode [record "m4", record "m3"])), w)
    else if q.messageId = "m4" then (.ok (some (pageNode [record "m2", record "m1"])), w)
    else (.ok (some (pageNode [])), w)
  Download := fun w _ _ => ((none, some (.other 0)), w)
  ParseProtoMessage := fun m => .other m.Body

/-- A server that answers every query with the string node, whose content is
not a list. -/
def stringEnv : Env Unit where
  query := fun w _ => (.ok (some stringNode), w)
  Download := fun w _ _ => ((none, some (.other 0)), w)
  ParseProtoMessage := fun m => .other m.Body

/-- A schedule of the caller that takes no step of its own: the caller only
receives; at each loop check of the task `quit` is still unset. -/
def laggingCaller : Nat → Nat :=
  fun _ => 0

/-- A schedule of the caller: it takes the first send, and before the next loop
check of the task it has executed `quit = true` and `close(c)`. -/
def promptCaller : Nat → Nat :=
  fun k => if k = 2 then 2 else 0

/-- A schedule of the caller: the 30 second timer fires while the first query
of the task is under way. -/
def timerDuringFirstQuery : Nat → Nat :=
  fun k => if k = 1 then 1 else 0

end Whatsapp

namespace Whatsapp

/-! ## Auxiliary lemmas -/

theorem decodeMessages_body_foldl (entries : List Entry) (acc : List WebMessageInfo) :
    entries.foldl decodeMessages.body acc = acc ++ entries.filterMap Entry.record? := by
  induction entries generalizing acc with
  | nil => simp
  | cons e es ih =>
    cases e with
    | webMessageInfo m => simp [List.foldl_cons, decodeMessages.body, Entry.record?, ih]
    | other tag => simp [List.foldl_cons, decodeMessages.body, Entry.record?, ih]

theorem decodeMessages_list (d : String) (attrs : List (String × String))
    (entries : List Entry) :
    decodeMessages (some ⟨d, some attrs, some (.list entries)⟩)
      = .ok (entries.filterMap Entry.record?) := by
  simp [decodeMessages, decodeMessages_body_foldl]

theorem decodeMessages_pageNode (msgs : List WebMessageInfo) :
    decodeMessages (some (pageNode msgs)) = .ok msgs := by
  unfold pageNode
  rw [decodeMessages_list]
  congr 1
  induction msgs with
  | nil => rfl
  | cons m ms ih => simp [Entry.record?, ih]

theorem dispatchMessages_eq_flatMap {σ : Type} (env : Env σ) (hs : List Handler)
    (msgs : List WebMessageInfo) :
    dispatchMessages env hs msgs
      = msgs.flatMap (fun r =>
          [Action.handle (.typed (env.ParseProtoMessage r)) hs, Action.handle (.raw r) hs]) := by
  induction msgs with
  | nil => rfl
  | cons m ms ih => simp [dispatchMessages, ih]

theorem queriesOf_dispatchMessages {σ : Type} (env : Env σ) (hs : List Handler)
    (msgs : List WebMessageInfo) : queriesOf (dispatchMessages env hs msgs) = [] := by
  induction msgs with
  | nil => rfl
  | cons m ms ih => simp [dispatchMessages, queriesOf, ih]

theorem eventsOf_dispatchMessages {σ : Type} (env : Env σ) (hs : List Handler)
    (msgs : List WebMessageInfo) :
    eventsOf (dispatchMessages env hs msgs)
      = msgs.flatMap (fun r => [Event.typed (env.ParseProtoMessage r), Event.raw r]) := by
  induction msgs with
  | nil => rfl
  | cons m ms ih => simp [dispatchMessages, eventsOf, ih]

theorem length_dispatchMessages {σ : Type} (env : Env σ) (hs : List Handler)
    (msgs : List WebMessageInfo) :
    (dispatchMessages env hs msgs).length = 2 * msgs.length := by
  induction msgs with
  | nil => rfl
  | cons m ms ih => simp [dispatchMessages, ih]; omega

theorem queriesOf_append (a b : List Action) :
    queriesOf (a ++ b) = queriesOf a ++ queriesOf b := by
  induction a with
  | nil => rfl
  | cons x xs ih => cases x <;> simp [queriesOf, ih]

theorem eventsOf_append (a b : List Action) :
    eventsOf (a ++ b) = eventsOf a ++ eventsOf b := by
  induction a with
  | nil => rfl
  | cons x xs ih => cases x <;> simp [eventsOf, ih]

/-! ## decodeMessages -/

/-- C3: decodeMessages returns the empty sequence for an absent response, for
nil attributes and for nil content; for a content list (with attributes) it
returns exactly the entries that are message records, in their order; one
conforming and one non-conforming entry give a result of length 1; the result
is never longer than the content list. -/
theorem C3_decodeMessages_keeps_records_in_order :
    decodeMessages none = .ok [] ∧
    (∀ n : Node, n.Attributes = none → decodeMessages (some n) = .ok []) ∧
    (∀ n : Node, n.Content = none → decodeMessages (some n) = .ok []) ∧
    (∀ (d : String) (attrs : List (String × String)) (entries : List Entry),
      decodeMessages (some ⟨d, some attrs, some (.list entries)⟩)
        = .ok (entries.filterMap Entry.record?)) ∧
    (∀ (d : String) (attrs : List (String × String)) (m : WebMessageInfo) (tag : String),
      decodeMessages (some ⟨d, some attrs, some (.list [.webMessageInfo m, .other tag])⟩)
        = .ok [m] ∧
      decodeMessages (some ⟨d, some attrs, some (.list [.other tag, .webMessageInfo m])⟩)
        = .ok [m]) ∧
    (∀ (n : Node) (entries : List Entry) (msgs : List WebMessageInfo),
      n.Content = some (.list entries) → decodeMessages (some n) = .ok msgs →
        msgs.length ≤ entries.length) := by
  refine ⟨rfl, ?_, ?_, decodeMessages_list, ?_, ?_⟩
  · intro n h
    simp [decodeMessages, h]
  · intro n h
    cases ha : n.Attributes <;> simp [decodeMessages, h, ha]
  · intro d attrs m tag
    simp [decodeMessages_list, Entry.record?]
  · intro n entries msgs hc hd
    obtain ⟨d, a, c⟩ := n
    simp only at hc
    subst hc
    cases a with
    | none =>
      simp [decodeMessages] at hd
      subst hd
      simp
    | some attrs =>
      rw [decodeMessages_list] at hd
      injection hd with hd
      subst hd
      exact List.length_filterMap_le _ _

/-- C4 (fails on the code): for a response with attributes whose content is
not nil and not a list of entries, the type assertion of line 26 panics, so
decodeMessages aborts instead of returning a sequence. -/
theorem C4_decodeMessages_panics_on_non_list_content :
    decodeMessages (some stringNode) = .error .interfaceConversion ∧
    (∀ (d : String) (attrs : List (String × String)) (tag : String),
      decodeMessages (some ⟨d, some attrs, some (.other tag)⟩) = .error .interfaceConversion) :=
  ⟨rfl, fun _ _ _ => rfl⟩

/-! ## LoadChatMessages -/

/-- C2: for count > 0, when the query succeeds and its answer decodes to the
records r1..rn, LoadChatMessages issues exactly that one query and then
dispatches exactly 2n events, typed(r1), raw(r1), ..., typed(rn), raw(rn), to
the effective handler list, and returns nil. -/
theorem C2_LoadChatMessages_dispatches_page_in_order {σ : Type} (env : Env σ) (wac : Conn)
    (jid : String) (count : Int) (messageId : String) (owner after : Bool)
    (handlers : Option (List Handler)) (w w1 : σ) (node : Option Node)
    (msgs : List WebMessageInfo)
    (hcount : 0 < count)
    (hq : env.query w
        (pageQuery jid messageId (if after then "after" else "before") owner count)
          = (.ok node, w1))
    (hd : decodeMessages node = .ok msgs) :
    (LoadChatMessages env wac jid count messageId owner after handlers w).result = .ok none ∧
    (LoadChatMessages env wac jid count messageId owner after handlers w).trace
      = .query (pageQuery jid messageId (if after then "after" else "before") owner count) ::
          msgs.flatMap (fun r =>
            [Action.handle (.typed (env.ParseProtoMessage r)) (handlers.getD wac.handler),
             Action.handle (.raw r) (handlers.getD wac.handler)]) ∧
    queriesOf (LoadChatMessages env wac jid count messageId owner after handlers w).trace
      = [pageQuery jid messageId (if after then "after" else "before") owner count] ∧
    eventsOf (LoadChatMessages env wac jid count messageId owner after handlers w).trace
      = msgs.flatMap (fun r => [Event.typed (env.ParseProtoMessage r), Event.raw r]) ∧
    (eventsOf (LoadChatMessages env wac jid count messageId owner after handlers w).trace).length
      = 2 * msgs.length := by
  have hnot : ¬ count ≤ 0 := by omega
  have hout : LoadChatMessages env wac jid count messageId owner after handlers w
      = ⟨.ok none,
          .query (pageQuery jid messageId (if after then "after" else "before") owner count) ::
            dispatchMessages env (handlers.getD wac.handler) msgs, w1⟩ := by
    cases handlers <;> simp [LoadChatMessages, hnot, hq, hd]
  have hlen : ∀ l : List WebMessageInfo,
      (l.flatMap (fun r => [Event.typed (env.ParseProtoMessage r), Event.raw r])).length
        = 2 * l.length := by
    intro l
    induction l with
    | nil => rfl
    | cons m ms ih => simp [ih]; omega
  rw [hout]
  refine ⟨rfl, ?_, ?_, ?_, ?_⟩
  · simp [dispatchMessages_eq_flatMap]
  · simp [queriesOf, queriesOf_dispatchMessages]
  · simp [eventsOf, eventsOf_dispatchMessages]
  · simp [eventsOf, eventsOf_dispatchMessages, hlen]

/-- Witness of C2: the scroll scenario, conversation c1, five records with
ids m5..m1, gives ten events typed(m5), raw(m5), ..., typed(m1), raw(m1). -/
theorem C2_scroll_scenario_witness :
    (LoadChatMessages scrollEnv sampleConn "c1" 5 "" true false none ()).result = .ok none ∧
    queriesOf (LoadChatMessages scrollEnv sampleConn "c1" 5 "" true false none ()).trace
      = [⟨"message", "c1", "", "before", "true", "", 5, 0⟩] ∧
    eventsOf (LoadChatMessages scrollEnv sampleConn "c1" 5 "" true false none ()).trace
      = [.typed (.other "m5"), .raw (record "m5"), .typed (.other "m4"), .raw (record "m4"),
         .typed (.other "m3"), .raw (record "m3"), .typed (.other "m2"), .raw (record "m2"),
         .typed (.other "m1"), .raw (record "m1")] := by
  have h := C2_LoadChatMessages_dispatches_page_in_order scrollEnv sampleConn "c1" 5 "" true
    false none () () (some (pageNode scrollPage)) scrollPage (by decide) rfl
    (decodeMessages_pageNode scrollPage)
  exact ⟨h.1, h.2.2.1, h.2.2.2.1⟩

/-! ## Non-positive counts -/

/-- C8: with count ≤ 0 (chunkSize ≤ 0) LoadChatMessages, LoadFullChatHistory
and LoadFullChatHistoryAfter perform no action at all (no query, no handler
invocation), leave the server untouched and return; the two that return an
error return nil; no crawl task is started. -/
theorem C8_non_positive_count_is_a_no_op {σ : Type} (env : Env σ) (wac : Conn)
    (sched : Nat → Nat) (fuel : Nat) (jid messageId : String) (count : Int)
    (owner after : Bool) (pause : Duration) (handlers : Option (List Handler)) (w : σ)
    (hcount : count ≤ 0) :
    ((LoadChatMessages env wac jid count messageId owner after handlers w).result = .ok none ∧
      (LoadChatMessages env wac jid count messageId owner after handlers w).trace = [] ∧
      (LoadChatMessages env wac jid count messageId owner after handlers w).world = w) ∧
    ((LoadFullChatHistory env wac sched fuel jid count pause handlers w).err = .ok none ∧
      (LoadFullChatHistory env wac sched fuel jid count pause handlers w).trace = [] ∧
      (LoadFullChatHistory env wac sched fuel jid count pause handlers w).world = w ∧
      (LoadFullChatHistory env wac sched fuel jid count pause handlers w).task = none) ∧
    ((LoadFullChatHistoryAfter env wac fuel jid messageId count pause handlers w).status
        = .returned ∧
      (LoadFullChatHistoryAfter env wac fuel jid messageId count pause handlers w).trace = [] ∧
      (LoadFullChatHistoryAfter env wac fuel jid messageId count pause handlers w).world = w) := by
  simp [LoadChatMessages, LoadFullChatHistory, LoadFullChatHistoryAfter, hcount]

/-- Witness of C8: count 0 and the scroll server, which would answer any
query with five records. -/
theorem C8_zero_count_witness :
    (0 : Int) ≤ 0 ∧
    (LoadChatMessages scrollEnv sampleConn "c1" 0 "m1" true false none ()).trace = [] ∧
    (LoadFullChatHistory scrollEnv sampleConn (fun _ => 0) 9 "c1" 0 0 none ()).trace = [] ∧
    (LoadFullChatHistoryAfter scrollEnv sampleConn 9 "c1" "m1" 0 0 none ()).trace = [] := by
  have h := C8_non_positive_count_is_a_no_op scrollEnv sampleConn (fun _ => 0) 9 "c1" "m1" 0
    true false 0 none () (le_refl 0)
  exact ⟨le_refl 0, h.1.2.1, h.2.1.2.1, h.2.2.2.1⟩

/-! ## LoadFullChatHistoryAfter -/

theorem runLoop_stop {σ S : Type} (body : S → σ → Iter σ S) (fuel : Nat) (s s1 : S)
    (w w1 : σ) (tr : List Action) (h : body s w = ⟨.stop s1, tr, w1⟩) :
    runLoop body (fuel + 1) s w = ⟨.returned, s1, tr, w1⟩ := by
  simp [runLoop, h]

theorem runLoop_next {σ S : Type} (body : S → σ → Iter σ S) (fuel : Nat) (s s1 : S)
    (w w1 : σ) (tr : List Action) (h : body s w = ⟨.next s1, tr, w1⟩) :
    runLoop body (fuel + 1) s w
      = ⟨(runLoop body fuel s1 w1).status, (runLoop body fuel s1 w1).final,
          tr ++ (runLoop body fuel s1 w1).trace, (runLoop body fuel s1 w1).world⟩ := by
  simp [runLoop, h]

theorem runLoop_panic {σ S : Type} (body : S → σ → Iter σ S) (fuel : Nat) (s s1 : S)
    (w w1 : σ) (tr : List Action) (p : Panic) (h : body s w = ⟨.panic p s1, tr, w1⟩) :
    runLoop body (fuel + 1) s w = ⟨.panicked p, s1, tr, w1⟩ := by
  simp [runLoop, h]

/-- C9: in the loop of LoadFullChatHistoryAfter with chunkSize > 0, from any
loop state, a query that succeeds with a page of n < chunkSize records is
followed by the 2n events of that page (typed then raw per record, in page
order) and the crawl returns: the trace ends there, with that single query,
and the loop variables, messageId among them, are unchanged.  The same holds
for the whole function when this is its first query. -/
theorem C9_short_page_ends_forward_crawl {σ : Type} (env : Env σ) (wac : Conn) (jid : String)
    (chunkSize : Int) (pause : Duration) (hs : List Handler) (fuel : Nat) (s : AfterState)
    (w w1 : σ) (node : Option Node) (msgs : List WebMessageInfo)
    (hpos : 0 < chunkSize)
    (hq : env.query w (pageQuery jid s.messageId "after" s.msgOwner chunkSize) = (.ok node, w1))
    (hd : decodeMessages node = .ok msgs)
    (hshort : (msgs.length : Int) < chunkSize) :
    runLoop (LoadFullChatHistoryAfter.body env jid chunkSize pause hs) (fuel + 1) s w
      = ⟨.returned, s,
          .query (pageQuery jid s.messageId "after" s.msgOwner chunkSize) ::
            msgs.flatMap (fun r =>
              [Action.handle (.typed (env.ParseProtoMessage r)) hs, Action.handle (.raw r) hs]),
          w1⟩ ∧
    queriesOf (runLoop (LoadFullChatHistoryAfter.body env jid chunkSize pause hs)
        (fuel + 1) s w).trace
      = [pageQuery jid s.messageId "after" s.msgOwner chunkSize] ∧
    (s = ⟨s.messageId, true, false⟩ →
      LoadFullChatHistoryAfter env wac (fuel + 1) jid s.messageId chunkSize pause (some hs) w
        = ⟨.returned, s,
            .query (pageQuery jid s.messageId "after" true chunkSize) ::
              msgs.flatMap (fun r =>
                [Action.handle (.typed (env.ParseProtoMessage r)) hs,
                 Action.handle (.raw r) hs]),
            w1⟩) := by
  have hne : (msgs.length : Int) ≠ chunkSize := by omega
  have hbody : LoadFullChatHistoryAfter.body env jid chunkSize pause hs s w
      = ⟨.stop s, .query (pageQuery jid s.messageId "after" s.msgOwner chunkSize) ::
          dispatchMessages env hs msgs, w1⟩ := by
    simp [LoadFullChatHistoryAfter.body, hq, hd, hne]
  have hrun := runLoop_stop _ fuel s s w w1 _ hbody
  rw [dispatchMessages_eq_flatMap] at hrun
  refine ⟨hrun, ?_, ?_⟩
  · rw [hrun, ← dispatchMessages_eq_flatMap]
    simp [queriesOf, queriesOf_dispatchMessages]
  · intro hs0
    have hnot : ¬ chunkSize ≤ 0 := by omega
    have hown : s.msgOwner = true := by rw [hs0]
    rw [hown] at hrun
    simp only [LoadFullChatHistoryAfter, hnot, if_false]
    rw [← hs0]
    exact hrun

/-- Witness of C9: chunkSize 9 against the scroll server, whose page has five
records. -/
theorem C9_short_page_witness :
    (LoadFullChatHistoryAfter scrollEnv sampleConn 3 "c1" "m0" 9 0 (some []) ()).status
      = .returned ∧
    queriesOf (LoadFullChatHistoryAfter scrollEnv sampleConn 3 "c1" "m0" 9 0 (some []) ()).trace
      = [⟨"message", "c1", "m0", "after", "true", "", 9, 0⟩] ∧
    (eventsOf (LoadFullChatHistoryAfter scrollEnv sampleConn 3 "c1" "m0" 9 0
      (some []) ()).trace).length = 10 := by
  have h := C9_short_page_ends_forward_crawl scrollEnv sampleConn "c1" 9 0 [] 2
    ⟨"m0", true, false⟩ () () (some (pageNode scrollPage)) scrollPage (by decide) rfl
    (decodeMessages_pageNode scrollPage) (by decide)
  have h3 := h.2.2 rfl
  rw [h3]
  exact ⟨rfl, rfl, rfl⟩

theorem stuck_loop (hs : List Handler) (n : Nat) :
    runLoop (LoadFullChatHistoryAfter.body stuckEnv "c1" 1 0 hs) n ⟨"m1", false, false⟩ ()
      = ⟨.outOfFuel, ⟨"m1", false, false⟩,
          (List.replicate n
            [Action.query (pageQuery "c1" "m1" "after" false 1),
             Action.handle (.error .ErrServerRespondedWith404) hs,
             Action.sleep 0]).flatten, ()⟩ := by
  induction n with
  | zero => rfl
  | succ k ih =>
    have hbody : LoadFullChatHistoryAfter.body stuckEnv "c1" 1 0 hs ⟨"m1", false, false⟩ ()
        = ⟨.next ⟨"m1", false, false⟩,
            [Action.query (pageQuery "c1" "m1" "after" false 1),
             Action.handle (.error .ErrServerRespondedWith404) hs,
             Action.sleep 0], ()⟩ := by
      rfl
    rw [runLoop_next _ k _ _ _ _ _ hbody, ih]
    simp [List.replicate_succ]

theorem stuck_queries (hs : List Handler) (n : Nat) :
    queriesOf (List.replicate n
        [Action.query (pageQuery "c1" "m1" "after" false 1),
         Action.handle (.error .ErrServerRespondedWith404) hs,
         Action.sleep 0]).flatten
      = List.replicate n (pageQuery "c1" "m1" "after" false 1) := by
  induction n with
  | zero => rfl
  | succ k ih => simp [List.replicate_succ, queriesOf, ih]

theorem stuck_events (hs : List Handler) (n : Nat) :
    eventsOf (List.replicate n
        [Action.query (pageQuery "c1" "m1" "after" false 1),
         Action.handle (.error .ErrServerRespondedWith404) hs,
         Action.sleep 0]).flatten
      = List.replicate n (Event.error .ErrServerRespondedWith404) := by
  induction n with
  | zero => rfl
  | succ k ih => simp [List.replicate_succ, eventsOf, ih]

/-- C1 (fails on the code): started at "start" with chunkSize 1 against a
server that returns the one record m1 (no own-message flag) and then 404 for
every query, the crawl reaches ownerGuess = false, and from there every 404
is dispatched as an error and prevNotFound is reset: for every fuel n + 1 the
crawl has not returned, and it has issued the same query for m1 n times, each
answered with 404. -/
theorem C1_consecutive_404_with_owner_false_never_terminates (n : Nat) :
    (LoadFullChatHistoryAfter stuckEnv sampleConn (n + 1) "c1" "start" 1 0 none ()).status
      = .outOfFuel ∧
    queriesOf (LoadFullChatHistoryAfter stuckEnv sampleConn (n + 1) "c1" "start" 1 0
        none ()).trace
      = ⟨"message", "c1", "start", "after", "true", "", 1, 0⟩ ::
          List.replicate n ⟨"message", "c1", "m1", "after", "false", "", 1, 0⟩ ∧
    eventsOf (LoadFullChatHistoryAfter stuckEnv sampleConn (n + 1) "c1" "start" 1 0
        none ()).trace
      = [.typed (.other "m1"), .raw unflaggedRecord] ++
          List.replicate n (.error .ErrServerRespondedWith404) := by
  have hbody : LoadFullChatHistoryAfter.body stuckEnv "c1" 1 0 sampleConn.handler
      ⟨"start", true, false⟩ ()
      = ⟨.next ⟨"m1", false, false⟩,
          [Action.query (pageQuery "c1" "start" "after" true 1),
           Action.handle (.typed (.other "m1")) sampleConn.handler,
           Action.handle (.raw unflaggedRecord) sampleConn.handler,
           Action.sleep 0], ()⟩ := by
    rfl
  have hrun : LoadFullChatHistoryAfter stuckEnv sampleConn (n + 1) "c1" "start" 1 0 none ()
      = runLoop (LoadFullChatHistoryAfter.body stuckEnv "c1" 1 0 sampleConn.handler) (n + 1)
          ⟨"start", true, false⟩ () := by
    rfl
  rw [hrun, runLoop_next _ n _ _ _ _ _ hbody, stuck_loop]
  refine ⟨rfl, ?_, ?_⟩
  · simp only [queriesOf_append, stuck_queries]
    rfl
  · simp only [eventsOf_append, stuck_events]
    rfl

/-! ## LoadFullChatHistory -/

theorem crawl_body_trace {σ : Type} (env : Env σ) (sched : Nat → Nat) (jid : String)
    (chunkSize : Int) (pause : Duration) (hs : List Handler) (s : CrawlState) (w : σ) :
    (LoadFullChatHistory.body env sched jid chunkSize pause hs s w).trace = [] ∨
    ∃ tail, (LoadFullChatHistory.body env sched jid chunkSize pause hs s w).trace
      = .query (pageQuery jid s.beforeMsg "before" s.beforeMsgIsOwner chunkSize) :: tail := by
  unfold LoadFullChatHistory.body
  split
  · exact Or.inl rfl
  · right
    repeat' split
    all_goals exact ⟨_, rfl⟩

theorem crawl_first_query {σ : Type} (env : Env σ) (sched : Nat → Nat) (jid : String)
    (chunkSize : Int) (pause : Duration) (hs : List Handler) (fuel : Nat) (s : CrawlState)
    (w : σ) (q : QueryArgs)
    (h : (queriesOf (runLoop (LoadFullChatHistory.body env sched jid chunkSize pause hs)
      fuel s w).trace).head? = some q) :
    q = pageQuery jid s.beforeMsg "before" s.beforeMsgIsOwner chunkSize := by
  cases fuel with
  | zero => simp [runLoop, queriesOf] at h
  | succ f =>
    have hb := crawl_body_trace env sched jid chunkSize pause hs s w
    unfold runLoop at h
    rcases hbody : LoadFullChatHistory.body env sched jid chunkSize pause hs s w with
      ⟨flow, tr, w1⟩
    rw [hbody] at h hb
    simp only at hb
    cases flow with
    | next s1 =>
      rcases hb with hnil | ⟨tail, htail⟩
      · exfalso
        revert hbody
        unfold LoadFullChatHistory.body
        repeat' split
        all_goals simp_all
      · subst htail
        simp [queriesOf] at h
        exact h.symm
    | stop s1 =>
      rcases hb with hnil | ⟨tail, htail⟩
      · subst hnil
        simp [queriesOf] at h
      · subst htail
        simp [queriesOf] at h
        exact h.symm
    | panic p s1 =>
      rcases hb with hnil | ⟨tail, htail⟩
      · subst hnil
        simp [queriesOf] at h
      · subst htail
        simp [queriesOf] at h
        exact h.symm

theorem LoadFullChatHistory_trace {σ : Type} (env : Env σ) (wac : Conn) (sched : Nat → Nat)
    (fuel : Nat) (jid : String) (chunkSize : Int) (pause : Duration)
    (handlers : Option (List Handler)) (w : σ) (hpos : 0 < chunkSize) :
    (LoadFullChatHistory env wac sched fuel jid chunkSize pause handlers w).trace
      = (runLoop (LoadFullChatHistory.body env sched jid chunkSize pause
          (handlers.getD wac.handler)) fuel ⟨"", true, .selecting, 0⟩ w).trace := by
  have hnot : ¬ chunkSize ≤ 0 := by omega
  cases handlers <;> simp [LoadFullChatHistory, hnot]

theorem runLoop_trace_split {σ S : Type} (body : S → σ → Iter σ S) (fuel : Nat) (s : S)
    (w : σ) :
    ∃ tail, (runLoop body (fuel + 1) s w).trace = (body s w).trace ++ tail ∧
      (tail = [] ∨ ∃ s1, (body s w).flow = .next s1 ∧
        tail = (runLoop body fuel s1 (body s w).world).trace) := by
  rcases hbody : body s w with ⟨flow, tr, w1⟩
  cases flow with
  | next s1 =>
    refine ⟨(runLoop body fuel s1 w1).trace, ?_, Or.inr ⟨s1, rfl, rfl⟩⟩
    rw [runLoop_next body fuel s s1 w w1 tr hbody]
  | stop s1 =>
    refine ⟨[], ?_, Or.inl rfl⟩
    rw [runLoop_stop body fuel s s1 w w1 tr hbody]
    simp
  | panic p s1 =>
    refine ⟨[], ?_, Or.inl rfl⟩
    rw [runLoop_panic body fuel s s1 w w1 tr p hbody]
    simp

/-- C10: when the crawl task of LoadFullChatHistory gets to run (chunkSize > 0,
the caller has not given up before the first iteration), its first action is
the query with anchor id "", owner flag "true" and direction "before".  When
that query succeeds with records m0 :: rest, the 2N events of the page (typed
then raw per record, in page order) follow it immediately, and the next query
in the trace, if there is one, is anchored at the id of m0 with the owner flag
of m0 (false when m0 carries no flag). -/
theorem C10_backward_crawl_first_page {σ : Type} (env : Env σ) (wac : Conn)
    (sched : Nat → Nat) (fuel : Nat) (jid : String) (chunkSize : Int) (pause : Duration)
    (handlers : Option (List Handler)) (w : σ)
    (hpos : 0 < chunkSize) (hfuel : 0 < fuel)
    (hrun : (Caller.selecting.advance (sched 0)).quit = false) :
    (∃ tail, (LoadFullChatHistory env wac sched fuel jid chunkSize pause handlers w).trace
      = .query ⟨"message", jid, "", "before", "true", "", chunkSize, 0⟩ :: tail) ∧
    (∀ (node : Option Node) (w1 : σ) (m0 : WebMessageInfo) (rest : List WebMessageInfo),
      env.query w ⟨"message", jid, "", "before", "true", "", chunkSize, 0⟩ = (.ok node, w1) →
      decodeMessages node = .ok (m0 :: rest) →
      ∃ tail, (LoadFullChatHistory env wac sched fuel jid chunkSize pause handlers w).trace
          = .query ⟨"message", jid, "", "before", "true", "", chunkSize, 0⟩ ::
              ((m0 :: rest).flatMap (fun r =>
                [Action.handle (.typed (env.ParseProtoMessage r)) (handlers.getD wac.handler),
                 Action.handle (.raw r) (handlers.getD wac.handler)]) ++ tail) ∧
        ∀ q, (queriesOf tail).head? = some q →
          ∃ k id, m0.Key = some k ∧ k.Id = some id ∧
            q = ⟨"message", jid, id, "before", FormatBool k.fromMe, "", chunkSize, 0⟩) := by
  obtain ⟨f, rfl⟩ : ∃ f, fuel = f + 1 := ⟨fuel - 1, by omega⟩
  rw [LoadFullChatHistory_trace env wac sched (f + 1) jid chunkSize pause handlers w hpos]
  have hq0 : pageQuery jid "" "before" true chunkSize
      = ⟨"message", jid, "", "before", "true", "", chunkSize, 0⟩ := rfl
  obtain ⟨tl, htl, hrest⟩ := runLoop_trace_split
    (LoadFullChatHistory.body env sched jid chunkSize pause (handlers.getD wac.handler)) f
    ⟨"", true, .selecting, 0⟩ w
  constructor
  · rw [htl]
    have hne : ∃ t, (LoadFullChatHistory.body env sched jid chunkSize pause
        (handlers.getD wac.handler) ⟨"", true, .selecting, 0⟩ w).trace
          = .query ⟨"message", jid, "", "before", "true", "", chunkSize, 0⟩ :: t := by
      unfold LoadFullChatHistory.body
      simp only [hrun, hq0]
      repeat' split
      all_goals first | exact ⟨_, rfl⟩ | simp_all
    obtain ⟨t, ht⟩ := hne
    exact ⟨t ++ tl, by rw [ht]; rfl⟩
  · intro node w1 m0 rest hq hd
    rw [htl, ← dispatchMessages_eq_flatMap]
    rw [← hq0] at hq
    cases hc : (Caller.selecting.advance (sched 0)).advance (sched 1) with
    | selecting =>
      cases hk : m0.Key with
      | none =>
        refine ⟨[.send], ?_, ?_⟩
        · simp [LoadFullChatHistory.body, hrun, hq, hd, hc, hk] at hrest ⊢
          exact ⟨hq0, hrest⟩
        · intro q hq1
          simp [queriesOf] at hq1
      | some k =>
        cases hid : k.Id with
        | none =>
          refine ⟨[.send], ?_, ?_⟩
          · simp [LoadFullChatHistory.body, hrun, hq, hd, hc, hk, hid] at hrest ⊢
            exact ⟨hq0, hrest⟩
          · intro q hq1
            simp [queriesOf] at hq1
        | some id =>
          refine ⟨[.send, .sleep pause] ++ tl, ?_, ?_⟩
          · simp [LoadFullChatHistory.body, hrun, hq, hd, hc, hk, hid]
            exact hq0
          · intro q hq1
            refine ⟨k, id, rfl, hid, ?_⟩
            simp only [List.cons_append, List.nil_append, queriesOf] at hq1
            rcases hrest with hnil | ⟨s1, hflow, htail⟩
            · subst hnil
              simp [queriesOf] at hq1
            · simp [LoadFullChatHistory.body, hrun, hq, hd, hc, hk, hid] at hflow htail
              subst hflow
              rw [htail] at hq1
              have := crawl_first_query env sched jid chunkSize pause _ f _ _ q hq1
              simpa [pageQuery] using this
    | woken e =>
      refine ⟨[], ?_, ?_⟩
      · simp [LoadFullChatHistory.body, hrun, hq, hd, hc] at hrest ⊢
        exact ⟨hq0, hrest⟩
      · intro q hq1
        simp [queriesOf] at hq1
    | quitSet e =>
      refine ⟨[], ?_, ?_⟩
      · simp [LoadFullChatHistory.body, hrun, hq, hd, hc] at hrest ⊢
        exact ⟨hq0, hrest⟩
      · intro q hq1
        simp [queriesOf] at hq1
    | returned e =>
      refine ⟨[], ?_, ?_⟩
      · simp [LoadFullChatHistory.body, hrun, hq, hd, hc] at hrest ⊢
        exact ⟨hq0, hrest⟩
      · intro q hq1
        simp [queriesOf] at hq1

/-- Witness of C10: two records of history, chunkSize 2, a caller that takes
no step of its own: the second query is anchored at m2 with owner flag
"false". -/
theorem C10_backfill_witness :
    ((0 : Int) < 2 ∧ 0 < 3 ∧ (Caller.selecting.advance 0).quit = false) ∧
    (∃ tail, (LoadFullChatHistory backfillEnv sampleConn (fun _ => 0) 3 "c1" 2 0 none ()).trace
      = .query ⟨"message", "c1", "", "before", "true", "", 2, 0⟩ :: tail) ∧
    queriesOf (LoadFullChatHistory backfillEnv sampleConn (fun _ => 0) 3 "c1" 2 0 none ()).trace
      = [⟨"message", "c1", "", "before", "true", "", 2, 0⟩,
         ⟨"message", "c1", "m2", "before", "false", "", 2, 0⟩] ∧
    eventsOf (LoadFullChatHistory backfillEnv sampleConn (fun _ => 0) 3 "c1" 2 0 none ()).trace
      = [.typed (.other "m2"), .raw (record "m2"), .typed (.other "m1"), .raw (record "m1")] :=
  ⟨⟨by decide, by decide, rfl⟩,
    (C10_backward_crawl_first_page backfillEnv sampleConn (fun _ => 0) 3 "c1" 2 0 none ()
      (by decide) (by decide) rfl).1,
    rfl, rfl⟩

/-! ## LoadMessageByID and DownloadMediaMessage -/

theorem download_loop_sim {σ : Type} (env : Env σ) (jid : String)
    (msgs : List WebMessageInfo) (w : σ) :
    (∀ p, (LoadMessageByID.loop env jid msgs w).result = .error p →
      DownloadMediaMessage.loop env jid msgs w
        = ⟨.error p, (LoadMessageByID.loop env jid msgs w).trace,
            (LoadMessageByID.loop env jid msgs w).world⟩) ∧
    (∀ m, (LoadMessageByID.loop env jid msgs w).result = .ok (some m) →
      DownloadMediaMessage.loop env jid msgs w
        = (DownloadMediaMessage.switch env (env.ParseProtoMessage m)
            (LoadMessageByID.loop env jid msgs w).world).after
              (LoadMessageByID.loop env jid msgs w).trace) ∧
    ((LoadMessageByID.loop env jid msgs w).result = .ok none →
      ∃ e, DownloadMediaMessage.loop env jid msgs w
        = ⟨.ok (none, some e), (LoadMessageByID.loop env jid msgs w).trace,
            (LoadMessageByID.loop env jid msgs w).world⟩) := by
  induction msgs generalizing w with
  | nil => simp [LoadMessageByID.loop, DownloadMediaMessage.loop]
  | cons msg rest ih =>
    unfold LoadMessageByID.loop DownloadMediaMessage.loop
    cases hid : msg.keyId? with
    | none => simp
    | some id =>
      simp only
      rcases hq1 : env.query w (afterQuery jid id "true") with ⟨r1, w1⟩
      cases r1 with
      | ok node =>
        simp only
        cases hd : decodeMessages node with
        | error p => simp
        | ok page =>
          cases page with
          | nil =>
            have h := ih w1
            simp only [Outcome.after]
            refine ⟨fun p hp => ?_, fun m hm => ?_, fun hn => ?_⟩
            · rw [h.1 p hp]
            · rw [h.2.1 m hm]
              simp [Outcome.after]
            · obtain ⟨e, he⟩ := h.2.2 hn
              exact ⟨e, by rw [he]⟩
          | cons msg1 _ => simp
      | error e1 =>
        simp only
        rcases hq2 : env.query w1 (afterQuery jid id "false") with ⟨r2, w2⟩
        cases r2 with
        | error e2 => simp
        | ok node =>
          simp only
          cases hd : decodeMessages node with
          | error p => simp
          | ok page =>
            cases page with
            | nil =>
              have h := ih w2
              simp only [Outcome.after]
              refine ⟨fun p hp => ?_, fun m hm => ?_, fun hn => ?_⟩
              · rw [h.1 p hp]
              · rw [h.2.1 m hm]
                simp [Outcome.after]
              · obtain ⟨e, he⟩ := h.2.2 hn
                exact ⟨e, by rw [he]⟩
            | cons msg1 _ => simp

theorem download_sim {σ : Type} (env : Env σ) (jid messageID : String) (w : σ) :
    (∀ p, (LoadMessageByID env jid messageID w).result = .error p →
      DownloadMediaMessage env jid messageID w
        = ⟨.error p, (LoadMessageByID env jid messageID w).trace,
            (LoadMessageByID env jid messageID w).world⟩) ∧
    (∀ m, (LoadMessageByID env jid messageID w).result = .ok (some m) →
      DownloadMediaMessage env jid messageID w
        = (DownloadMediaMessage.switch env (env.ParseProtoMessage m)
            (LoadMessageByID env jid messageID w).world).after
              (LoadMessageByID env jid messageID w).trace) ∧
    ((LoadMessageByID env jid messageID w).result = .ok none →
      ∃ e, DownloadMediaMessage env jid messageID w
        = ⟨.ok (none, some e), (LoadMessageByID env jid messageID w).trace,
            (LoadMessageByID env jid messageID w).world⟩) := by
  unfold LoadMessageByID DownloadMediaMessage
  rcases hq : env.query w (firstQuery jid messageID) with ⟨r, w1⟩
  cases r with
  | error e => simp
  | ok node =>
    simp only
    cases hd : decodeMessages node with
    | error p => simp
    | ok msgs =>
      have h := download_loop_sim env jid msgs w1
      simp only [Outcome.after]
      refine ⟨fun p hp => ?_, fun m hm => ?_, fun hn => ?_⟩
      · rw [h.1 p hp]
      · rw [h.2.1 m hm]
        simp [Outcome.after]
      · obtain ⟨e, he⟩ := h.2.2 hn
        exact ⟨e, by rw [he]⟩

theorem downloadsOf_append (a b : List Action) :
    downloadsOf (a ++ b) = downloadsOf a ++ downloadsOf b := by
  induction a with
  | nil => rfl
  | cons x xs ih => cases x <;> simp [downloadsOf, ih]

theorem LoadMessageByID_loop_no_download {σ : Type} (env : Env σ) (jid : String)
    (msgs : List WebMessageInfo) (w : σ) :
    downloadsOf (LoadMessageByID.loop env jid msgs w).trace = [] := by
  induction msgs generalizing w with
  | nil => rfl
  | cons msg rest ih =>
    unfold LoadMessageByID.loop
    repeat' split
    all_goals simp_all [Outcome.after, downloadsOf, downloadsOf_append]
    all_goals (repeat' split at *) <;> simp_all [downloadsOf]

theorem LoadMessageByID_no_download {σ : Type} (env : Env σ) (jid messageID : String) (w : σ) :
    downloadsOf (LoadMessageByID env jid messageID w).trace = [] := by
  unfold LoadMessageByID
  repeat' split
  all_goals simp [Outcome.after, downloadsOf, downloadsOf_append,
    LoadMessageByID_loop_no_download]

/-- C6: LoadMessageByID first issues the single-item query for messageID.  If
it fails, the result is nil and nothing else is queried.  If it yields the one
record msg with id id, one record "after" id is queried with owner flag "true"
and, only if that fails, once more with "false"; the result is element 0 of
the page of the successful attempt (nil if that page is empty), and nil if
both attempts fail.  With a first page of one record at most three queries are
issued. -/
theorem C6_LoadMessageByID_locates {σ : Type} (env : Env σ) (jid messageID : String) (w : σ) :
    (∀ (e : GoError) (w1 : σ),
      env.query w ⟨"message", jid, messageID, "", "false", "", 1, 0⟩ = (.error e, w1) →
      LoadMessageByID env jid messageID w
        = ⟨.ok none, [.query ⟨"message", jid, messageID, "", "false", "", 1, 0⟩], w1⟩) ∧
    (∀ (node0 : Option Node) (w1 : σ) (msg : WebMessageInfo) (id : String),
      env.query w ⟨"message", jid, messageID, "", "false", "", 1, 0⟩ = (.ok node0, w1) →
      decodeMessages node0 = .ok [msg] → msg.keyId? = some id →
      (∀ (node : Option Node) (w2 : σ) (page : List WebMessageInfo),
        env.query w1 ⟨"message", jid, id, "after", "true", "", 1, 0⟩ = (.ok node, w2) →
        decodeMessages node = .ok page →
        LoadMessageByID env jid messageID w
          = ⟨.ok page.head?,
              [.query ⟨"message", jid, messageID, "", "false", "", 1, 0⟩,
               .query ⟨"message", jid, id, "after", "true", "", 1, 0⟩], w2⟩) ∧
      (∀ (e : GoError) (wm : σ) (node : Option Node) (w2 : σ) (page : List WebMessageInfo),
        env.query w1 ⟨"message", jid, id, "after", "true", "", 1, 0⟩ = (.error e, wm) →
        env.query wm ⟨"message", jid, id, "after", "false", "", 1, 0⟩ = (.ok node, w2) →
        decodeMessages node = .ok page →
        LoadMessageByID env jid messageID w
          = ⟨.ok page.head?,
              [.query ⟨"message", jid, messageID, "", "false", "", 1, 0⟩,
               .query ⟨"message", jid, id, "after", "true", "", 1, 0⟩,
               .query ⟨"message", jid, id, "after", "false", "", 1, 0⟩], w2⟩) ∧
      (∀ (e : GoError) (wm : σ) (e2 : GoError) (w2 : σ),
        env.query w1 ⟨"message", jid, id, "after", "true", "", 1, 0⟩ = (.error e, wm) →
        env.query wm ⟨"message", jid, id, "after", "false", "", 1, 0⟩ = (.error e2, w2) →
        LoadMessageByID env jid messageID w
          = ⟨.ok none,
              [.query ⟨"message", jid, messageID, "", "false", "", 1, 0⟩,
               .query ⟨"message", jid, id, "after", "true", "", 1, 0⟩,
               .query ⟨"message", jid, id, "after", "false", "", 1, 0⟩], w2⟩)) ∧
    (∀ (node0 : Option Node) (w1 : σ) (msg : WebMessageInfo),
      env.query w ⟨"message", jid, messageID, "", "false", "", 1, 0⟩ = (.ok node0, w1) →
      decodeMessages node0 = .ok [msg] →
      (queriesOf (LoadMessageByID env jid messageID w).trace).length ≤ 3) := by
  have hq1 : firstQuery jid messageID = ⟨"message", jid, messageID, "", "false", "", 1, 0⟩ := rfl
  have hqT : ∀ id, afterQuery jid id "true" = ⟨"message", jid, id, "after", "true", "", 1, 0⟩ :=
    fun _ => rfl
  have hqF : ∀ id, afterQuery jid id "false"
      = ⟨"message", jid, id, "after", "false", "", 1, 0⟩ := fun _ => rfl
  refine ⟨?_, ?_, ?_⟩
  · intro e w1 hq
    simp [LoadMessageByID, hq1, hq]
  · intro node0 w1 msg id hq hd hid
    refine ⟨?_, ?_, ?_⟩
    · intro node w2 page hqt hdp
      cases page <;>
        simp [LoadMessageByID, LoadMessageByID.loop, Outcome.after, hq1, hqT, hq, hd, hid, hqt,
          hdp]
    · intro e wm node w2 page hqt hqf hdp
      cases page <;>
        simp [LoadMessageByID, LoadMessageByID.loop, Outcome.after, hq1, hqT, hqF, hq, hd, hid,
          hqt, hqf, hdp]
    · intro e wm e2 w2 hqt hqf
      simp [LoadMessageByID, LoadMessageByID.loop, Outcome.after, hq1, hqT, hqF, hq, hd, hid,
        hqt, hqf]
  · intro node0 w1 msg hq hd
    simp only [LoadMessageByID, hq1, hq, hd, LoadMessageByID.loop]
    cases hid : msg.keyId? with
    | none => simp [Outcome.after, queriesOf]
    | some id =>
      simp only
      rcases hqt : env.query w1 (afterQuery jid id "true") with ⟨r1, w2⟩
      cases r1 with
      | ok node =>
        simp only
        cases hdp : decodeMessages node with
        | error p => simp [Outcome.after, queriesOf]
        | ok page => cases page <;> simp [Outcome.after, queriesOf]
      | error e =>
        simp only
        rcases hqf : env.query w2 (afterQuery jid id "false") with ⟨r2, w3⟩
        cases r2 with
        | error e2 => simp [Outcome.after, queriesOf]
        | ok node =>
          simp only
          cases hdp : decodeMessages node with
          | error p => simp [Outcome.after, queriesOf]
          | ok page => cases page <;> simp [Outcome.after, queriesOf]

/-- Witness of C6: the single-item query returns x, the "after" query fails
with owner flag "true" and returns y with "false": three queries, result y. -/
theorem C6_locate_witness :
    LoadMessageByID locateEnv "c1" "x" ()
      = ⟨.ok (some (record "y")),
          [.query ⟨"message", "c1", "x", "", "false", "", 1, 0⟩,
           .query ⟨"message", "c1", "x", "after", "true", "", 1, 0⟩,
           .query ⟨"message", "c1", "x", "after", "false", "", 1, 0⟩], ()⟩ :=
  ((C6_LoadMessageByID_locates locateEnv "c1" "x" ()).2.1 (some (pageNode [record "x"])) ()
    (record "x") "x" rfl (decodeMessages_pageNode _) rfl).2.1 (.other 7) ()
    (some (pageNode [record "y"])) () [record "y"] rfl rfl (decodeMessages_pageNode _)

/-- C5: in DownloadMediaMessage, once the message msg1 has been located (the
queries LoadMessageByID issues return it) and converted by ParseProtoMessage:
a conversion error is returned as the error, with nil bytes and no download;
for an Image, Video, Audio, Document or Sticker message the Download of that
variant is invoked exactly once, after the queries, and its (bytes, error)
pair is returned unchanged; for any other variant the not-downloadable error
is returned with nil bytes and no download is attempted. -/
theorem C5_DownloadMediaMessage_variant_dispatch {σ : Type} (env : Env σ)
    (jid messageID : String) (w : σ) (msg1 : WebMessageInfo)
    (hloc : (LoadMessageByID env jid messageID w).result = .ok (some msg1)) :
    (∀ e, env.ParseProtoMessage msg1 = .error e →
      DownloadMediaMessage env jid messageID w
        = ⟨.ok (none, some e), (LoadMessageByID env jid messageID w).trace,
            (LoadMessageByID env jid messageID w).world⟩ ∧
      downloadsOf (DownloadMediaMessage env jid messageID w).trace = []) ∧
    (∀ kind m, (env.ParseProtoMessage msg1).fetchBytes? = some (kind, m) →
      DownloadMediaMessage env jid messageID w
        = ⟨.ok (env.Download (LoadMessageByID env jid messageID w).world kind m).1,
            (LoadMessageByID env jid messageID w).trace ++ [.download kind m],
            (env.Download (LoadMessageByID env jid messageID w).world kind m).2⟩ ∧
      downloadsOf (DownloadMediaMessage env jid messageID w).trace = [(kind, m)]) ∧
    (∀ tag, env.ParseProtoMessage msg1 = .other tag →
      DownloadMediaMessage env jid messageID w
        = ⟨.ok (none, some (.new "not message download")),
            (LoadMessageByID env jid messageID w).trace,
            (LoadMessageByID env jid messageID w).world⟩ ∧
      downloadsOf (DownloadMediaMessage env jid messageID w).trace = []) := by
  have hD := (download_sim env jid messageID w).2.1 msg1 hloc
  have hL := LoadMessageByID_no_download env jid messageID w
  refine ⟨?_, ?_, ?_⟩
  · intro e he
    rw [hD, he]
    simp [DownloadMediaMessage.switch, Outcome.after, hL]
  · intro kind m hk
    rw [hD]
    cases hp : env.ParseProtoMessage msg1 <;> rw [hp] at hk <;>
      simp [ParsedMessage.fetchBytes?] at hk <;>
      obtain ⟨rfl, rfl⟩ := hk <;>
      simp [DownloadMediaMessage.switch, Outcome.after, downloadsOf_append, hL, downloadsOf]
  · intro tag ht
    rw [hD, ht]
    simp [DownloadMediaMessage.switch, Outcome.after, hL, notMessageDownload]

/-- Witness of C5: the located record y parses to an image, whose download
yields the bytes 1, 2, 3; they are returned after exactly one download. -/
theorem C5_image_download_witness :
    (LoadMessageByID locateEnv "c1" "x" ()).result = .ok (some (record "y")) ∧
    (DownloadMediaMessage locateEnv "c1" "x" ()).result = .ok (some [1, 2, 3], none) ∧
    downloadsOf (DownloadMediaMessage locateEnv "c1" "x" ()).trace = [(.image, "y")] := by
  have h := (C5_DownloadMediaMessage_variant_dispatch locateEnv "c1" "x" () (record "y") rfl).2.1
    .image "y" rfl
  exact ⟨rfl, by rw [h.1]; rfl, h.2⟩

/-- C7: DownloadMediaMessage resolves the message LoadMessageByID locates.  From
the same server state both issue the same sequence of queries; when
LoadMessageByID returns the record m, DownloadMediaMessage returns what the
spec's variant dispatch gives for ParseProtoMessage(m); when LoadMessageByID
returns nil, DownloadMediaMessage returns nil bytes and a non-nil error; and
they panic alike. -/
theorem C7_DownloadMediaMessage_refines_LoadMessageByID {σ : Type} (env : Env σ)
    (jid messageID : String) (w : σ) :
    queriesOf (DownloadMediaMessage env jid messageID w).trace
      = queriesOf (LoadMessageByID env jid messageID w).trace ∧
    (∀ m, (LoadMessageByID env jid messageID w).result = .ok (some m) →
      (DownloadMediaMessage env jid messageID w).result
        = .ok (specResolve env (env.ParseProtoMessage m)
            (LoadMessageByID env jid messageID w).world)) ∧
    ((LoadMessageByID env jid messageID w).result = .ok none →
      ∃ e, (DownloadMediaMessage env jid messageID w).result = .ok (none, some e)) ∧
    (∀ p, (LoadMessageByID env jid messageID w).result = .error p →
      (DownloadMediaMessage env jid messageID w).result = .error p) := by
  have hsim := download_sim env jid messageID w
  refine ⟨?_, ?_, ?_, ?_⟩
  · rcases hr : (LoadMessageByID env jid messageID w).result with p | r
    · rw [hsim.1 p hr]
    · cases r with
      | none =>
        obtain ⟨e, he⟩ := hsim.2.2 hr
        rw [he]
      | some m =>
        rw [hsim.2.1 m hr]
        cases env.ParseProtoMessage m <;>
          simp [DownloadMediaMessage.switch, Outcome.after, queriesOf_append, queriesOf]
  · intro m hm
    rw [hsim.2.1 m hm]
    cases env.ParseProtoMessage m <;>
      simp [DownloadMediaMessage.switch, Outcome.after, specResolve, ParsedMessage.fetchBytes?]
  · intro hn
    obtain ⟨e, he⟩ := hsim.2.2 hn
    exact ⟨e, by rw [he]⟩
  · intro p hp
    rw [hsim.1 p hp]

/-! ## Error propagation of the single-shot operations -/

/-- C14: when the query of LoadChatMessages (count > 0) fails with e, the
function returns exactly e; its only handler invocation is that error, so no
typed-message and no raw-record event is dispatched.  When the first query of
DownloadMediaMessage fails with e it returns nil bytes and e; when both
"after" attempts fail it returns nil bytes and the error of the second, the
last failed query. -/
theorem C14_single_shot_operations_return_the_query_error {σ : Type} (env : Env σ)
    (wac : Conn) (jid : String) (w : σ) :
    (∀ (count : Int) (messageId : String) (owner after : Bool)
        (handlers : Option (List Handler)) (e : GoError) (w1 : σ),
      0 < count →
      env.query w (pageQuery jid messageId (if after then "after" else "before") owner count)
        = (.error e, w1) →
      LoadChatMessages env wac jid count messageId owner after handlers w
        = ⟨.ok (some e),
            [.query (pageQuery jid messageId (if after then "after" else "before") owner count),
             .handle (.error e) (handlers.getD wac.handler)], w1⟩ ∧
      eventsOf (LoadChatMessages env wac jid count messageId owner after handlers w).trace
        = [.error e]) ∧
    (∀ (messageID : String) (e : GoError) (w1 : σ),
      env.query w ⟨"message", jid, messageID, "", "false", "", 1, 0⟩ = (.error e, w1) →
      DownloadMediaMessage env jid messageID w
        = ⟨.ok (none, some e), [.query ⟨"message", jid, messageID, "", "false", "", 1, 0⟩], w1⟩) ∧
    (∀ (messageID : String) (node0 : Option Node) (w1 wm w2 : σ) (msg : WebMessageInfo)
        (rest : List WebMessageInfo) (id : String) (e1 e2 : GoError),
      env.query w ⟨"message", jid, messageID, "", "false", "", 1, 0⟩ = (.ok node0, w1) →
      decodeMessages node0 = .ok (msg :: rest) → msg.keyId? = some id →
      env.query w1 ⟨"message", jid, id, "after", "true", "", 1, 0⟩ = (.error e1, wm) →
      env.query wm ⟨"message", jid, id, "after", "false", "", 1, 0⟩ = (.error e2, w2) →
      DownloadMediaMessage env jid messageID w
        = ⟨.ok (none, some e2),
            [.query ⟨"message", jid, messageID, "", "false", "", 1, 0⟩,
             .query ⟨"message", jid, id, "after", "true", "", 1, 0⟩,
             .query ⟨"message", jid, id, "after", "false", "", 1, 0⟩], w2⟩) := by
  have hq1 : ∀ messageID, firstQuery jid messageID
      = ⟨"message", jid, messageID, "", "false", "", 1, 0⟩ := fun _ => rfl
  have hqT : ∀ id, afterQuery jid id "true" = ⟨"message", jid, id, "after", "true", "", 1, 0⟩ :=
    fun _ => rfl
  have hqF : ∀ id, afterQuery jid id "false"
      = ⟨"message", jid, id, "after", "false", "", 1, 0⟩ := fun _ => rfl
  refine ⟨?_, ?_, ?_⟩
  · intro count messageId owner after handlers e w1 hcount hq
    have hnot : ¬ count ≤ 0 := by omega
    have hout : LoadChatMessages env wac jid count messageId owner after handlers w
        = ⟨.ok (some e),
            [.query (pageQuery jid messageId (if after then "after" else "before") owner count),
             .handle (.error e) (handlers.getD wac.handler)], w1⟩ := by
      cases handlers <;> simp [LoadChatMessages, hnot, hq]
    rw [hout]
    exact ⟨rfl, rfl⟩
  · intro messageID e w1 hq
    simp [DownloadMediaMessage, hq1, hq]
  · intro messageID node0 w1 wm w2 msg rest id e1 e2 hq hd hid hqt hqf
    simp [DownloadMediaMessage, DownloadMediaMessage.loop, Outcome.after, hq1, hqT, hqF, hq, hd,
      hid, hqt, hqf]

/-- Witness of C14: every query fails with the same generic error; it is what
LoadChatMessages and DownloadMediaMessage return. -/
theorem C14_failing_server_witness :
    (LoadChatMessages failingEnv sampleConn "c1" 5 "" true false none ()).result
      = .ok (some (.other 7)) ∧
    eventsOf (LoadChatMessages failingEnv sampleConn "c1" 5 "" true false none ()).trace
      = [.error (.other 7)] ∧
    (DownloadMediaMessage failingEnv "c1" "x" ()).result = .ok (none, some (.other 7)) := by
  have h := C14_single_shot_operations_return_the_query_error failingEnv sampleConn "c1" ()
  have h1 := h.1 5 "" true false none (.other 7) () (by decide) rfl
  have h2 := h.2.1 "x" (.other 7) () rfl
  exact ⟨by rw [h1.1], h1.2, by rw [h2]⟩

/-! ## LoadFullChatHistoryAfter: the failure branches and the page length test -/

theorem after_body_trace {σ : Type} (env : Env σ) (jid : String) (chunkSize : Int)
    (pause : Duration) (hs : List Handler) (s : AfterState) (w : σ) :
    ∃ tail, (LoadFullChatHistoryAfter.body env jid chunkSize pause hs s w).trace
      = .query (pageQuery jid s.messageId "after" s.msgOwner chunkSize) :: tail := by
  unfold LoadFullChatHistoryAfter.body
  repeat' split
  all_goals exact ⟨_, rfl⟩

theorem after_run_first_query {σ : Type} (env : Env σ) (jid : String) (chunkSize : Int)
    (pause : Duration) (hs : List Handler) (fuel : Nat) (s : AfterState) (w : σ) :
    ∃ tail, (runLoop (LoadFullChatHistoryAfter.body env jid chunkSize pause hs)
        (fuel + 1) s w).trace
      = .query (pageQuery jid s.messageId "after" s.msgOwner chunkSize) :: tail := by
  obtain ⟨tl, htl, _⟩ := runLoop_trace_split
    (LoadFullChatHistoryAfter.body env jid chunkSize pause hs) fuel s w
  obtain ⟨t, ht⟩ := after_body_trace env jid chunkSize pause hs s w
  exact ⟨t ++ tl, by rw [htl, ht]; rfl⟩

/-- C16: in the loop of LoadFullChatHistoryAfter, a query that fails with the
404 error while prevNotFound is false and msgOwner is true sets prevNotFound,
flips msgOwner to false and keeps messageId; the iteration dispatches nothing
to the handlers (it only pauses one second), and the next action of the crawl
is the query for the same messageId with owner flag "false". -/
theorem C16_first_404_flips_the_owner_flag {σ : Type} (env : Env σ) (jid : String)
    (chunkSize : Int) (pause : Duration) (hs : List Handler) (fuel : Nat) (s : AfterState)
    (w w1 : σ)
    (hprev : s.prevNotFound = false) (hown : s.msgOwner = true)
    (hq : env.query w ⟨"message", jid, s.messageId, "after", "true", "", chunkSize, 0⟩
      = (.error .ErrServerRespondedWith404, w1)) :
    LoadFullChatHistoryAfter.body env jid chunkSize pause hs s w
      = ⟨.next ⟨s.messageId, false, true⟩,
          [.query ⟨"message", jid, s.messageId, "after", "true", "", chunkSize, 0⟩,
           .sleep Second], w1⟩ ∧
    eventsOf (LoadFullChatHistoryAfter.body env jid chunkSize pause hs s w).trace = [] ∧
    ∃ tail, (runLoop (LoadFullChatHistoryAfter.body env jid chunkSize pause hs)
        (fuel + 2) s w).trace
      = .query ⟨"message", jid, s.messageId, "after", "true", "", chunkSize, 0⟩ ::
          .sleep Second ::
          .query ⟨"message", jid, s.messageId, "after", "false", "", chunkSize, 0⟩ :: tail := by
  have hq0 : pageQuery jid s.messageId "after" true chunkSize
      = ⟨"message", jid, s.messageId, "after", "true", "", chunkSize, 0⟩ := rfl
  have hbody : LoadFullChatHistoryAfter.body env jid chunkSize pause hs s w
      = ⟨.next ⟨s.messageId, false, true⟩,
          [.query ⟨"message", jid, s.messageId, "after", "true", "", chunkSize, 0⟩,
           .sleep Second], w1⟩ := by
    simp [LoadFullChatHistoryAfter.body, hown, hprev, hq0, hq]
  refine ⟨hbody, by rw [hbody]; rfl, ?_⟩
  obtain ⟨tail, htail⟩ := after_run_first_query env jid chunkSize pause hs fuel
    ⟨s.messageId, false, true⟩ w1
  refine ⟨tail, ?_⟩
  rw [runLoop_next _ (fuel + 1) s _ w w1 _ hbody, htail]
  rfl

/-- Witness of C16: the initial state of a crawl from m0 against a server that
answers 404. -/
theorem C16_first_404_witness :
    LoadFullChatHistoryAfter.body notFoundEnv "c1" 3 0 [] ⟨"m0", true, false⟩ ()
      = ⟨.next ⟨"m0", false, true⟩,
          [.query ⟨"message", "c1", "m0", "after", "true", "", 3, 0⟩, .sleep Second], ()⟩ :=
  (C16_first_404_flips_the_owner_flag notFoundEnv "c1" 3 0 [] 0 ⟨"m0", true, false⟩ () ()
    rfl rfl rfl).1

/-- C17: in the loop of LoadFullChatHistoryAfter, a query that fails with an
error other than 404 dispatches exactly one event, that error, resets
prevNotFound to false and keeps messageId and msgOwner; the crawl does not
terminate: after the pause its next action is the very same query. -/
theorem C17_other_errors_are_dispatched_and_retried {σ : Type} (env : Env σ) (jid : String)
    (chunkSize : Int) (pause : Duration) (hs : List Handler) (fuel : Nat) (s : AfterState)
    (w w1 : σ) (err : GoError)
    (hne : err ≠ .ErrServerRespondedWith404)
    (hq : env.query w (pageQuery jid s.messageId "after" s.msgOwner chunkSize)
      = (.error err, w1)) :
    LoadFullChatHistoryAfter.body env jid chunkSize pause hs s w
      = ⟨.next ⟨s.messageId, s.msgOwner, false⟩,
          [.query (pageQuery jid s.messageId "after" s.msgOwner chunkSize),
           .handle (.error err) hs, .sleep pause], w1⟩ ∧
    eventsOf (LoadFullChatHistoryAfter.body env jid chunkSize pause hs s w).trace
      = [.error err] ∧
    ∃ tail, (runLoop (LoadFullChatHistoryAfter.body env jid chunkSize pause hs)
        (fuel + 2) s w).trace
      = .query (pageQuery jid s.messageId "after" s.msgOwner chunkSize) ::
          .handle (.error err) hs :: .sleep pause ::
          .query (pageQuery jid s.messageId "after" s.msgOwner chunkSize) :: tail := by
  have hbody : LoadFullChatHistoryAfter.body env jid chunkSize pause hs s w
      = ⟨.next ⟨s.messageId, s.msgOwner, false⟩,
          [.query (pageQuery jid s.messageId "after" s.msgOwner chunkSize),
           .handle (.error err) hs, .sleep pause], w1⟩ := by
    simp [LoadFullChatHistoryAfter.body, hq, hne]
  refine ⟨hbody, by rw [hbody]; rfl, ?_⟩
  obtain ⟨tail, htail⟩ := after_run_first_query env jid chunkSize pause hs fuel
    ⟨s.messageId, s.msgOwner, false⟩ w1
  refine ⟨tail, ?_⟩
  rw [runLoop_next _ (fuel + 1) s _ w w1 _ hbody, htail]
  rfl

/-- Witness of C17: a generic failure in a state reached after a page m3. -/
theorem C17_generic_failure_witness :
    LoadFullChatHistoryAfter.body failingEnv "c1" 3 0 [] ⟨"m3", false, true⟩ ()
      = ⟨.next ⟨"m3", false, false⟩,
          [.query ⟨"message", "c1", "m3", "after", "false", "", 3, 0⟩,
           .handle (.error (.other 7)) [], .sleep 0], ()⟩ :=
  (C17_other_errors_are_dispatched_and_retried failingEnv "c1" 3 0 [] 0 ⟨"m3", false, true⟩
    () () (.other 7) (by decide) rfl).1

/-- C19: for every messageId and chunkSize > 0, if every query answers with
the 404 error, LoadFullChatHistoryAfter issues exactly two queries for that
messageId, the first with owner flag "true" and the second with "false" (one
second apart), dispatches no event and returns. -/
theorem C19_all_404_ends_after_two_queries {σ : Type} (env : Env σ) (wac : Conn) (fuel : Nat)
    (jid messageId : String) (chunkSize : Int) (pause : Duration)
    (handlers : Option (List Handler)) (w : σ)
    (hpos : 0 < chunkSize)
    (h404 : ∀ (w0 : σ) (q : QueryArgs), (env.query w0 q).1 = .error .ErrServerRespondedWith404) :
    (LoadFullChatHistoryAfter env wac (fuel + 2) jid messageId chunkSize pause handlers w).status
      = .returned ∧
    (LoadFullChatHistoryAfter env wac (fuel + 2) jid messageId chunkSize pause handlers w).trace
      = [.query ⟨"message", jid, messageId, "after", "true", "", chunkSize, 0⟩,
         .sleep Second,
         .query ⟨"message", jid, messageId, "after", "false", "", chunkSize, 0⟩] ∧
    queriesOf (LoadFullChatHistoryAfter env wac (fuel + 2) jid messageId chunkSize pause
        handlers w).trace
      = [⟨"message", jid, messageId, "after", "true", "", chunkSize, 0⟩,
         ⟨"message", jid, messageId, "after", "false", "", chunkSize, 0⟩] ∧
    eventsOf (LoadFullChatHistoryAfter env wac (fuel + 2) jid messageId chunkSize pause
        handlers w).trace = [] := by
  have hnot : ¬ chunkSize ≤ 0 := by omega
  have hans : ∀ (w0 : σ) (q : QueryArgs),
      env.query w0 q = (.error .ErrServerRespondedWith404, (env.query w0 q).2) :=
    fun w0 q => Prod.ext (h404 w0 q) rfl
  have hqT : pageQuery jid messageId "after" true chunkSize
      = ⟨"message", jid, messageId, "after", "true", "", chunkSize, 0⟩ := rfl
  have hqF : pageQuery jid messageId "after" false chunkSize
      = ⟨"message", jid, messageId, "after", "false", "", chunkSize, 0⟩ := rfl
  have hb1 : ∀ hs : List Handler,
      LoadFullChatHistoryAfter.body env jid chunkSize pause hs ⟨messageId, true, false⟩ w
        = ⟨.next ⟨messageId, false, true⟩,
            [.query ⟨"message", jid, messageId, "after", "true", "", chunkSize, 0⟩,
             .sleep Second],
            (env.query w ⟨"message", jid, messageId, "after", "true", "", chunkSize, 0⟩).2⟩ := by
    intro hs
    unfold LoadFullChatHistoryAfter.body
    simp only [hqT]
    rw [hans w]
    simp
  have hb2 : ∀ (hs : List Handler) (w1 : σ),
      LoadFullChatHistoryAfter.body env jid chunkSize pause hs ⟨messageId, false, true⟩ w1
        = ⟨.stop ⟨messageId, false, true⟩,
            [.query ⟨"message", jid, messageId, "after", "false", "", chunkSize, 0⟩],
            (env.query w1 ⟨"message", jid, messageId, "after", "false", "", chunkSize, 0⟩).2⟩ := by
    intro hs w1
    unfold LoadFullChatHistoryAfter.body
    simp only [hqF]
    rw [hans w1]
    simp
  have hrun : ∀ hs : List Handler,
      runLoop (LoadFullChatHistoryAfter.body env jid chunkSize pause hs) (fuel + 2)
          ⟨messageId, true, false⟩ w
        = ⟨.returned, ⟨messageId, false, true⟩,
            [.query ⟨"message", jid, messageId, "after", "true", "", chunkSize, 0⟩,
             .sleep Second,
             .query ⟨"message", jid, messageId, "after", "false", "", chunkSize, 0⟩],
            (env.query
              (env.query w ⟨"message", jid, messageId, "after", "true", "", chunkSize, 0⟩).2
              ⟨"message", jid, messageId, "after", "false", "", chunkSize, 0⟩).2⟩ := by
    intro hs
    rw [runLoop_next _ (fuel + 1) _ _ _ _ _ (hb1 hs), runLoop_stop _ fuel _ _ _ _ _ (hb2 hs _)]
    rfl
  have hout : LoadFullChatHistoryAfter env wac (fuel + 2) jid messageId chunkSize pause
      handlers w
        = ⟨.returned, ⟨messageId, false, true⟩,
            [.query ⟨"message", jid, messageId, "after", "true", "", chunkSize, 0⟩,
             .sleep Second,
             .query ⟨"message", jid, messageId, "after", "false", "", chunkSize, 0⟩],
            (env.query
              (env.query w ⟨"message", jid, messageId, "after", "true", "", chunkSize, 0⟩).2
              ⟨"message", jid, messageId, "after", "false", "", chunkSize, 0⟩).2⟩ := by
    simp only [LoadFullChatHistoryAfter, hnot, if_false]
    exact hrun _
  rw [hout]
  exact ⟨rfl, rfl, rfl, rfl⟩

/-- Witness of C19: a crawl from the unknown id m0 against the server that
answers 404. -/
theorem C19_unknown_id_witness :
    (LoadFullChatHistoryAfter notFoundEnv sampleConn 5 "c1" "m0" 3 0 none ()).status
      = .returned ∧
    (LoadFullChatHistoryAfter notFoundEnv sampleConn 5 "c1" "m0" 3 0 none ()).trace
      = [.query ⟨"message", "c1", "m0", "after", "true", "", 3, 0⟩,
         .sleep Second,
         .query ⟨"message", "c1", "m0", "after", "false", "", 3, 0⟩] := by
  have h := C19_all_404_ends_after_two_queries notFoundEnv sampleConn 3 "c1" "m0" 3 0 none ()
    (by decide) (fun _ _ => rfl)
  exact ⟨h.1, h.2.1⟩

/-- C20: in the loop of LoadFullChatHistoryAfter (chunkSize > 0), after a
successful query whose page is decoded the crawl goes round again only if the
page has exactly chunkSize records, and, element 0 carrying an id, it does so
whenever it has.  A page of any other length, longer ones included, ends the
crawl with the loop variables unchanged.  On an exact-length page messageId
becomes the id of element 0 and msgOwner its own-message flag, false when the
flag is absent, and these anchor the next query. -/
theorem C20_crawl_continues_only_on_exact_length_page {σ : Type} (env : Env σ) (jid : String)
    (chunkSize : Int) (pause : Duration) (hs : List Handler) (fuel : Nat) (s : AfterState)
    (w w1 : σ) (node : Option Node) (msgs : List WebMessageInfo)
    (hpos : 0 < chunkSize)
    (hq : env.query w (pageQuery jid s.messageId "after" s.msgOwner chunkSize) = (.ok node, w1))
    (hd : decodeMessages node = .ok msgs) :
    ((msgs.length : Int) ≠ chunkSize →
      LoadFullChatHistoryAfter.body env jid chunkSize pause hs s w
        = ⟨.stop s,
            .query (pageQuery jid s.messageId "after" s.msgOwner chunkSize) ::
              dispatchMessages env hs msgs, w1⟩) ∧
    (chunkSize < (msgs.length : Int) →
      (runLoop (LoadFullChatHistoryAfter.body env jid chunkSize pause hs)
          (fuel + 1) s w).status = .returned ∧
      queriesOf (runLoop (LoadFullChatHistoryAfter.body env jid chunkSize pause hs)
          (fuel + 1) s w).trace
        = [pageQuery jid s.messageId "after" s.msgOwner chunkSize]) ∧
    (∀ s1, (LoadFullChatHistoryAfter.body env jid chunkSize pause hs s w).flow = .next s1 →
      (msgs.length : Int) = chunkSize) ∧
    ((msgs.length : Int) = chunkSize →
      ∃ (m0 : WebMessageInfo) (rest : List WebMessageInfo), msgs = m0 :: rest ∧
      ∀ (k : MessageKey) (id : String), m0.Key = some k → k.Id = some id →
      LoadFullChatHistoryAfter.body env jid chunkSize pause hs s w
        = ⟨.next ⟨id, k.FromMe.getD false, false⟩,
            .query (pageQuery jid s.messageId "after" s.msgOwner chunkSize) ::
              (dispatchMessages env hs msgs ++ [.sleep pause]), w1⟩ ∧
      ∃ tail, (runLoop (LoadFullChatHistoryAfter.body env jid chunkSize pause hs)
          (fuel + 2) s w).trace
        = .query (pageQuery jid s.messageId "after" s.msgOwner chunkSize) ::
            (dispatchMessages env hs msgs ++
              .sleep pause ::
              .query ⟨"message", jid, id, "after", FormatBool (k.FromMe.getD false), "",
                chunkSize, 0⟩ :: tail)) := by
  have hstop : (msgs.length : Int) ≠ chunkSize →
      LoadFullChatHistoryAfter.body env jid chunkSize pause hs s w
        = ⟨.stop s,
            .query (pageQuery jid s.messageId "after" s.msgOwner chunkSize) ::
              dispatchMessages env hs msgs, w1⟩ := by
    intro hne
    simp [LoadFullChatHistoryAfter.body, hq, hd, hne]
  refine ⟨hstop, ?_, ?_, ?_⟩
  · intro hlong
    have hne : (msgs.length : Int) ≠ chunkSize := by omega
    rw [runLoop_stop _ fuel s s w w1 _ (hstop hne)]
    exact ⟨rfl, by simp [queriesOf, queriesOf_dispatchMessages]⟩
  · intro s1 hflow
    by_contra hne
    rw [hstop hne] at hflow
    cases hflow
  · intro hlen
    obtain ⟨m0, rest, hmsgs⟩ : ∃ m0 rest, msgs = m0 :: rest := by
      cases msgs with
      | nil =>
        simp at hlen
        omega
      | cons m0 rest => exact ⟨m0, rest, rfl⟩
    refine ⟨m0, rest, hmsgs, ?_⟩
    intro k id hk hid
    have hfrom : k.fromMe = k.FromMe.getD false := by
      unfold MessageKey.fromMe
      cases k.FromMe <;> rfl
    have hbody : LoadFullChatHistoryAfter.body env jid chunkSize pause hs s w
        = ⟨.next ⟨id, k.FromMe.getD false, false⟩,
            .query (pageQuery jid s.messageId "after" s.msgOwner chunkSize) ::
              (dispatchMessages env hs msgs ++ [.sleep pause]), w1⟩ := by
      subst hmsgs
      have hlen2 : (rest.length : Int) + 1 = chunkSize := by simpa using hlen
      simp [LoadFullChatHistoryAfter.body, hq, hd, hlen2, hk, hid, hfrom]
    refine ⟨hbody, ?_⟩
    obtain ⟨tail, htail⟩ := after_run_first_query env jid chunkSize pause hs fuel
      ⟨id, k.FromMe.getD false, false⟩ w1
    refine ⟨tail, ?_⟩
    rw [runLoop_next _ (fuel + 1) s _ w w1 _ hbody, htail]
    simp [pageQuery]

/-- Witness of C20: the scroll server returns five records.  With chunkSize 5
the crawl goes on from m5 with owner flag "false"; with chunkSize 3 the page
is longer than asked for and the crawl returns after its first query. -/
theorem C20_exact_and_longer_page_witness :
    LoadFullChatHistoryAfter.body scrollEnv "c1" 5 0 [] ⟨"m0", true, false⟩ ()
      = ⟨.next ⟨"m5", false, false⟩,
          .query ⟨"message", "c1", "m0", "after", "true", "", 5, 0⟩ ::
            (dispatchMessages scrollEnv [] scrollPage ++ [.sleep 0]), ()⟩ ∧
    (runLoop (LoadFullChatHistoryAfter.body scrollEnv "c1" 3 0 []) 4
      ⟨"m0", true, false⟩ ()).status = .returned ∧
    queriesOf (runLoop (LoadFullChatHistoryAfter.body scrollEnv "c1" 3 0 []) 4
      ⟨"m0", true, false⟩ ()).trace = [⟨"message", "c1", "m0", "after", "true", "", 3, 0⟩] := by
  obtain ⟨m0, rest, hpage, hnext⟩ := (C20_crawl_continues_only_on_exact_length_page scrollEnv
    "c1" 5 0 [] 0 ⟨"m0", true, false⟩ () () (some (pageNode scrollPage)) scrollPage (by decide)
    rfl (decodeMessages_pageNode scrollPage)).2.2.2 (by decide)
  obtain ⟨rfl, rfl⟩ : record "m5" = m0 ∧
      [record "m4", record "m3", record "m2", record "m1"] = rest := by
    simpa [scrollPage] using hpage
  have h5 := hnext ⟨some "m5", some false⟩ "m5" rfl rfl
  have h3 := (C20_crawl_continues_only_on_exact_length_page scrollEnv "c1" 3 0 [] 3
    ⟨"m0", true, false⟩ () () (some (pageNode scrollPage)) scrollPage (by decide) rfl
    (decodeMessages_pageNode scrollPage)).2.1 (by decide)
  exact ⟨h5.1, h3.1, h3.2⟩

/-! ## The cursor invariant -/

theorem cursorOk_append (st : Scan) (a b : List Action) :
    cursorOk st (a ++ b) = (cursorOk st a && cursorOk (scan st a) b) := by
  induction a generalizing st with
  | nil => simp [cursorOk, scan]
  | cons x xs ih => simp [cursorOk, scan, ih, Bool.and_assoc]

theorem cursorOk_dispatchMessages {σ : Type} (env : Env σ) (hs : List Handler)
    (msgs : List WebMessageInfo) (st : Scan) :
    cursorOk st (dispatchMessages env hs msgs) = true := by
  induction msgs generalizing st with
  | nil => rfl
  | cons m ms ih => simp [dispatchMessages, cursorOk, queryFits, ih]

theorem scan_dispatchMessages_stale {σ : Type} (env : Env σ) (hs : List Handler)
    (msgs : List WebMessageInfo) (last : Option WebMessageInfo) :
    scan ⟨last, false⟩ (dispatchMessages env hs msgs) = ⟨last, false⟩ := by
  induction msgs with
  | nil => rfl
  | cons m ms ih => simpa [dispatchMessages, scan, scanStep] using ih

theorem scan_dispatchMessages_fresh {σ : Type} (env : Env σ) (hs : List Handler)
    (m0 : WebMessageInfo) (rest : List WebMessageInfo) (last : Option WebMessageInfo) :
    scan ⟨last, true⟩ (dispatchMessages env hs (m0 :: rest)) = ⟨some m0, false⟩ := by
  simp [dispatchMessages, scan, scanStep, scan_dispatchMessages_stale]

theorem scan_append (st : Scan) (a b : List Action) :
    scan st (a ++ b) = scan (scan st a) b := by
  induction a generalizing st with
  | nil => rfl
  | cons x xs ih => simp [scan, ih]

theorem queryFits_pageQuery (st : Scan) (jid anchor kind : String) (owner : Bool) (n : Int)
    (hlast : ∀ m, st.last = some m → m.keyId? = some anchor) :
    queryFits st (.query (pageQuery jid anchor kind owner n)) = true := by
  unfold queryFits
  cases h : st.last with
  | none => rfl
  | some m => simp [pageQuery, hlast m h]

theorem cursorOk_rejects_a_moved_anchor :
    cursorOk ⟨none, false⟩
      [.query (pageQuery "c1" "" "before" true 2), .handle (.raw (record "m2")) [],
       .handle (.raw (record "m1")) [], .query (pageQuery "c1" "m1" "before" false 2)]
      = false := by
  decide

theorem after_body_scan {σ : Type} (env : Env σ) (jid : String) (chunkSize : Int)
    (pause : Duration) (hs : List Handler) (s : AfterState) (w : σ) (st : Scan)
    (hlast : ∀ m, st.last = some m → m.keyId? = some s.messageId) :
    cursorOk st (LoadFullChatHistoryAfter.body env jid chunkSize pause hs s w).trace = true ∧
    ∀ s1, (LoadFullChatHistoryAfter.body env jid chunkSize pause hs s w).flow = .next s1 →
      ∀ m, (scan st (LoadFullChatHistoryAfter.body env jid chunkSize pause hs s w).trace).last
        = some m → m.keyId? = some s1.messageId := by
  have hfit := queryFits_pageQuery st jid s.messageId "after" s.msgOwner chunkSize hlast
  rcases hq : env.query w (pageQuery jid s.messageId "after" s.msgOwner chunkSize) with ⟨r, w1⟩
  cases r with
  | error err =>
    unfold LoadFullChatHistoryAfter.body
    simp only [hq]
    repeat' split
    all_goals
      simp only [cursorOk, scan, scanStep, hfit, Bool.and_self, Bool.true_and, true_and]
      first | refine ⟨rfl, ?_⟩ | skip
      intro s1 h
      first | (cases h; exact hlast) | cases h
  | ok node =>
    cases hd : decodeMessages node with
    | error p =>
      simp [LoadFullChatHistoryAfter.body, hq, hd, cursorOk, hfit]
    | ok msgs =>
      by_cases hlen : (msgs.length : Int) ≠ chunkSize
      · simp [LoadFullChatHistoryAfter.body, hq, hd, hlen, cursorOk, hfit,
          cursorOk_dispatchMessages]
      · have hlen1 : (msgs.length : Int) = chunkSize := not_not.mp hlen
        have hok : cursorOk st
            (.query (pageQuery jid s.messageId "after" s.msgOwner chunkSize) ::
              dispatchMessages env hs msgs) = true := by
          rw [cursorOk, hfit, cursorOk_dispatchMessages]
          rfl
        cases msgs with
        | nil =>
          have hlen2 : 0 = chunkSize := by simpa using hlen1
          have hbody : LoadFullChatHistoryAfter.body env jid chunkSize pause hs s w
              = ⟨.panic .indexOutOfRange s,
                  .query (pageQuery jid s.messageId "after" s.msgOwner chunkSize) ::
                    dispatchMessages env hs [], w1⟩ := by
            simp [LoadFullChatHistoryAfter.body, hq, hd, hlen2]
          rw [hbody]
          exact ⟨hok, fun s1 h => by cases h⟩
        | cons m0 rest =>
          have hlen2 : (rest.length : Int) + 1 = chunkSize := by simpa using hlen1
          cases hk : m0.Key with
          | none =>
            have hbody : LoadFullChatHistoryAfter.body env jid chunkSize pause hs s w
                = ⟨.panic .nilDereference s,
                    .query (pageQuery jid s.messageId "after" s.msgOwner chunkSize) ::
                      dispatchMessages env hs (m0 :: rest), w1⟩ := by
              simp [LoadFullChatHistoryAfter.body, hq, hd, hlen2, hk]
            rw [hbody]
            exact ⟨hok, fun s1 h => by cases h⟩
          | some k =>
            cases hid : k.Id with
            | none =>
              have hbody : LoadFullChatHistoryAfter.body env jid chunkSize pause hs s w
                  = ⟨.panic .nilDereference s,
                      .query (pageQuery jid s.messageId "after" s.msgOwner chunkSize) ::
                        dispatchMessages env hs (m0 :: rest), w1⟩ := by
                simp [LoadFullChatHistoryAfter.body, hq, hd, hlen2, hk, hid]
              rw [hbody]
              exact ⟨hok, fun s1 h => by cases h⟩
            | some id =>
              have hkey : m0.keyId? = some id := by simp [WebMessageInfo.keyId?, hk, hid]
              have hbody : LoadFullChatHistoryAfter.body env jid chunkSize pause hs s w
                  = ⟨.next ⟨id, k.fromMe, false⟩,
                      .query (pageQuery jid s.messageId "after" s.msgOwner chunkSize) ::
                        (dispatchMessages env hs (m0 :: rest) ++ [.sleep pause]), w1⟩ := by
                simp [LoadFullChatHistoryAfter.body, hq, hd, hlen2, hk, hid]
              have hsc : scan st
                  (.query (pageQuery jid s.messageId "after" s.msgOwner chunkSize) ::
                    (dispatchMessages env hs (m0 :: rest) ++ [.sleep pause]))
                    = ⟨some m0, false⟩ := by
                rw [scan, scanStep, scan_append, scan_dispatchMessages_fresh]
                rfl
              rw [hbody]
              refine ⟨?_, fun s1 h m hm => ?_⟩
              · show cursorOk st (_ :: (_ ++ _)) = true
                rw [cursorOk, hfit, cursorOk_append, cursorOk_dispatchMessages]
                rfl
              · cases h
                simp only [hsc] at hm
                cases hm
                exact hkey

theorem after_run_cursorOk {σ : Type} (env : Env σ) (jid : String) (chunkSize : Int)
    (pause : Duration) (hs : List Handler) (fuel : Nat) (s : AfterState) (w : σ) (st : Scan)
    (hlast : ∀ m, st.last = some m → m.keyId? = some s.messageId) :
    cursorOk st (runLoop (LoadFullChatHistoryAfter.body env jid chunkSize pause hs)
      fuel s w).trace = true := by
  induction fuel generalizing s w st with
  | zero => rfl
  | succ f ih =>
    obtain ⟨tl, htl, hrest⟩ := runLoop_trace_split
      (LoadFullChatHistoryAfter.body env jid chunkSize pause hs) f s w
    have hb := after_body_scan env jid chunkSize pause hs s w st hlast
    rw [htl, cursorOk_append, hb.1]
    rcases hrest with hnil | ⟨s1, hflow, htail⟩
    · subst hnil
      rfl
    · rw [htail]
      simpa using ih s1 _ _ (hb.2 s1 hflow)

theorem crawl_body_scan {σ : Type} (env : Env σ) (sched : Nat → Nat) (jid : String)
    (chunkSize : Int) (pause : Duration) (hs : List Handler) (s : CrawlState) (w : σ)
    (st : Scan) (hlast : ∀ m, st.last = some m → m.keyId? = some s.beforeMsg) :
    cursorOk st (LoadFullChatHistory.body env sched jid chunkSize pause hs s w).trace = true ∧
    ∀ s1, (LoadFullChatHistory.body env sched jid chunkSize pause hs s w).flow = .next s1 →
      ∀ m, (scan st (LoadFullChatHistory.body env sched jid chunkSize pause hs s w).trace).last
        = some m → m.keyId? = some s1.beforeMsg := by
  have hfit := queryFits_pageQuery st jid s.beforeMsg "before" s.beforeMsgIsOwner chunkSize hlast
  by_cases hquit : (s.caller.advance (sched s.sync)).quit = true
  · simp [LoadFullChatHistory.body, hquit, cursorOk]
  · rcases hq : env.query w (pageQuery jid s.beforeMsg "before" s.beforeMsgIsOwner chunkSize)
      with ⟨r, w1⟩
    cases r with
    | error err =>
      have hbody : LoadFullChatHistory.body env sched jid chunkSize pause hs s w
          = ⟨.next { s with caller := s.caller.advance (sched s.sync), sync := s.sync + 1 },
              [.query (pageQuery jid s.beforeMsg "before" s.beforeMsgIsOwner chunkSize),
               .handle (.error err) hs, .sleep pause], w1⟩ := by
        simp [LoadFullChatHistory.body, hquit, hq]
      rw [hbody]
      refine ⟨?_, fun s1 h m hm => ?_⟩
      · rw [cursorOk, hfit]
        rfl
      · cases h
        exact hlast m hm
    | ok node =>
      cases hd : decodeMessages node with
      | error p =>
        simp [LoadFullChatHistory.body, hquit, hq, hd, cursorOk, hfit]
      | ok msgs =>
        have hok : ∀ tl : List Action, cursorOk ⟨st.last, true⟩ [] = true →
            (∀ st0 : Scan, cursorOk st0 tl = true) →
            cursorOk st
              (.query (pageQuery jid s.beforeMsg "before" s.beforeMsgIsOwner chunkSize) ::
                (dispatchMessages env hs msgs ++ tl)) = true := by
          intro tl _ htl
          rw [cursorOk, hfit, cursorOk_append, cursorOk_dispatchMessages, htl]
          rfl
        have hok0 : cursorOk st
            (.query (pageQuery jid s.beforeMsg "before" s.beforeMsgIsOwner chunkSize) ::
              dispatchMessages env hs msgs) = true := by
          rw [cursorOk, hfit, cursorOk_dispatchMessages]
          rfl
        cases hc : (s.caller.advance (sched s.sync)).advance (sched (s.sync + 1)) with
        | selecting =>
          cases msgs with
          | nil =>
            have hbody : (LoadFullChatHistory.body env sched jid chunkSize pause hs s w)
                = ⟨.stop { s with caller := .woken none, sync := s.sync + 2 },
                    .query (pageQuery jid s.beforeMsg "before" s.beforeMsgIsOwner chunkSize) ::
                      (dispatchMessages env hs [] ++ [.send]), w1⟩ := by
              simp [LoadFullChatHistory.body, hquit, hq, hd, hc]
            rw [hbody]
            exact ⟨hok [.send] rfl (fun _ => rfl), fun s1 h => by cases h⟩
          | cons m0 rest =>
            cases hk : m0.Key with
            | none =>
              have hbody : (LoadFullChatHistory.body env sched jid chunkSize pause hs s w)
                  = ⟨.panic .nilDereference { s with caller := .woken none, sync := s.sync + 2 },
                      .query (pageQuery jid s.beforeMsg "before" s.beforeMsgIsOwner chunkSize) ::
                        (dispatchMessages env hs (m0 :: rest) ++ [.send]), w1⟩ := by
                simp [LoadFullChatHistory.body, hquit, hq, hd, hc, hk]
              rw [hbody]
              exact ⟨hok [.send] rfl (fun _ => rfl), fun s1 h => by cases h⟩
            | some k =>
              cases hid : k.Id with
              | none =>
                have hbody : (LoadFullChatHistory.body env sched jid chunkSize pause hs s w)
                    = ⟨.panic .nilDereference
                        { s with caller := .woken none, sync := s.sync + 2 },
                        .query (pageQuery jid s.beforeMsg "before" s.beforeMsgIsOwner
                          chunkSize) ::
                          (dispatchMessages env hs (m0 :: rest) ++ [.send]), w1⟩ := by
                  simp [LoadFullChatHistory.body, hquit, hq, hd, hc, hk, hid]
                rw [hbody]
                exact ⟨hok [.send] rfl (fun _ => rfl), fun s1 h => by cases h⟩
              | some id =>
                have hkey : m0.keyId? = some id := by simp [WebMessageInfo.keyId?, hk, hid]
                have hbody : (LoadFullChatHistory.body env sched jid chunkSize pause hs s w)
                    = ⟨.next ⟨id, k.fromMe, .woken none, s.sync + 2⟩,
                        .query (pageQuery jid s.beforeMsg "before" s.beforeMsgIsOwner
                          chunkSize) ::
                          (dispatchMessages env hs (m0 :: rest) ++ [.send, .sleep pause]),
                        w1⟩ := by
                  simp [LoadFullChatHistory.body, hquit, hq, hd, hc, hk, hid]
                have hsc : scan st
                    (.query (pageQuery jid s.beforeMsg "before" s.beforeMsgIsOwner chunkSize) ::
                      (dispatchMessages env hs (m0 :: rest) ++ [.send, .sleep pause]))
                      = ⟨some m0, false⟩ := by
                  rw [scan, scanStep, scan_append, scan_dispatchMessages_fresh]
                  rfl
                rw [hbody]
                refine ⟨hok [.send, .sleep pause] rfl (fun _ => rfl), fun s1 h m hm => ?_⟩
                cases h
                simp only [hsc] at hm
                cases hm
                exact hkey
        | woken e =>
          have hbody : (LoadFullChatHistory.body env sched jid chunkSize pause hs s w)
              = ⟨.panic .sendOnClosedChannel
                  { s with caller := .returned (Caller.woken e).result, sync := s.sync + 2 },
                  .query (pageQuery jid s.beforeMsg "before" s.beforeMsgIsOwner chunkSize) ::
                    dispatchMessages env hs msgs, w1⟩ := by
            simp [LoadFullChatHistory.body, hquit, hq, hd, hc]
          rw [hbody]
          exact ⟨hok0, fun s1 h => by cases h⟩
        | quitSet e =>
          have hbody : (LoadFullChatHistory.body env sched jid chunkSize pause hs s w)
              = ⟨.panic .sendOnClosedChannel
                  { s with caller := .returned (Caller.quitSet e).result, sync := s.sync + 2 },
                  .query (pageQuery jid s.beforeMsg "before" s.beforeMsgIsOwner chunkSize) ::
                    dispatchMessages env hs msgs, w1⟩ := by
            simp [LoadFullChatHistory.body, hquit, hq, hd, hc]
          rw [hbody]
          exact ⟨hok0, fun s1 h => by cases h⟩
        | returned e =>
          have hbody : (LoadFullChatHistory.body env sched jid chunkSize pause hs s w)
              = ⟨.panic .sendOnClosedChannel
                  { s with caller := .returned (Caller.returned e).result, sync := s.sync + 2 },
                  .query (pageQuery jid s.beforeMsg "before" s.beforeMsgIsOwner chunkSize) ::
                    dispatchMessages env hs msgs, w1⟩ := by
            simp [LoadFullChatHistory.body, hquit, hq, hd, hc]
          rw [hbody]
          exact ⟨hok0, fun s1 h => by cases h⟩

theorem crawl_run_cursorOk {σ : Type} (env : Env σ) (sched : Nat → Nat) (jid : String)
    (chunkSize : Int) (pause : Duration) (hs : List Handler) (fuel : Nat) (s : CrawlState)
    (w : σ) (st : Scan) (hlast : ∀ m, st.last = some m → m.keyId? = some s.beforeMsg) :
    cursorOk st (runLoop (LoadFullChatHistory.body env sched jid chunkSize pause hs)
      fuel s w).trace = true := by
  induction fuel generalizing s w st with
  | zero => rfl
  | succ f ih =>
    obtain ⟨tl, htl, hrest⟩ := runLoop_trace_split
      (LoadFullChatHistory.body env sched jid chunkSize pause hs) f s w
    have hb := crawl_body_scan env sched jid chunkSize pause hs s w st hlast
    rw [htl, cursorOk_append, hb.1]
    rcases hrest with hnil | ⟨s1, hflow, htail⟩
    · subst hnil
      rfl
    · rw [htail]
      simpa using ih s1 _ _ (hb.2 s1 hflow)

/-- C15: the cursor invariant of both crawlers, read off their traces.  In every
run of LoadFullChatHistory and of LoadFullChatHistoryAfter, whatever the
server answers, each query issued after a non-empty page has been consumed
carries as anchor id the id of element 0 of the most recently consumed
non-empty page.  An iteration whose query fails, an ownership flip included,
leaves the anchor id as it was. -/
theorem C15_cursor_anchor_invariant {σ : Type} (env : Env σ) (wac : Conn) (jid : String)
    (chunkSize : Int) (pause : Duration) (handlers : Option (List Handler)) (w : σ) :
    (∀ (sched : Nat → Nat) (fuel : Nat),
      cursorOk ⟨none, false⟩
        (LoadFullChatHistory env wac sched fuel jid chunkSize pause handlers w).trace = true) ∧
    (∀ (fuel : Nat) (messageId : String),
      cursorOk ⟨none, false⟩
        (LoadFullChatHistoryAfter env wac fuel jid messageId chunkSize pause handlers w).trace
          = true) ∧
    (∀ (sched : Nat → Nat) (hs : List Handler) (s : CrawlState) (w0 w1 : σ) (err : GoError),
      env.query w0 (pageQuery jid s.beforeMsg "before" s.beforeMsgIsOwner chunkSize)
        = (.error err, w1) →
      (LoadFullChatHistory.body env sched jid chunkSize pause hs s w0).flow.state.beforeMsg
        = s.beforeMsg) ∧
    (∀ (hs : List Handler) (s : AfterState) (w0 w1 : σ) (err : GoError),
      env.query w0 (pageQuery jid s.messageId "after" s.msgOwner chunkSize) = (.error err, w1) →
      (LoadFullChatHistoryAfter.body env jid chunkSize pause hs s w0).flow.state.messageId
        = s.messageId) := by
  refine ⟨?_, ?_, ?_, ?_⟩
  · intro sched fuel
    by_cases hpos : 0 < chunkSize
    · rw [LoadFullChatHistory_trace env wac sched fuel jid chunkSize pause handlers w hpos]
      exact crawl_run_cursorOk env sched jid chunkSize pause _ fuel _ w ⟨none, false⟩
        (fun m h => by cases h)
    · have hle : chunkSize ≤ 0 := by omega
      simp [LoadFullChatHistory, hle, cursorOk]
  · intro fuel messageId
    by_cases hpos : 0 < chunkSize
    · have hnot : ¬ chunkSize ≤ 0 := by omega
      simp only [LoadFullChatHistoryAfter, hnot, if_false]
      exact after_run_cursorOk env jid chunkSize pause _ fuel _ w ⟨none, false⟩
        (fun m h => by cases h)
    · have hle : chunkSize ≤ 0 := by omega
      simp [LoadFullChatHistoryAfter, hle, cursorOk]
  · intro sched hs s w0 w1 err hq
    unfold LoadFullChatHistory.body
    simp only [hq]
    split <;> rfl
  · intro hs s w0 w1 err hq
    unfold LoadFullChatHistoryAfter.body
    simp only [hq]
    repeat' split
    all_goals rfl

/-- Witness of C15: the backward crawl over two records of history issues a
second query, anchored at m2, the element 0 of the page m2, m1; a reader of the
trace finds the invariant kept. -/
theorem C15_backfill_anchor_witness :
    queriesOf (LoadFullChatHistory backfillEnv sampleConn (fun _ => 0) 3 "c1" 2 0 none ()).trace
      = [⟨"message", "c1", "", "before", "true", "", 2, 0⟩,
         ⟨"message", "c1", "m2", "before", "false", "", 2, 0⟩] ∧
    cursorOk ⟨none, false⟩
      (LoadFullChatHistory backfillEnv sampleConn (fun _ => 0) 3 "c1" 2 0 none ()).trace = true :=
  ⟨rfl, (C15_cursor_anchor_invariant backfillEnv sampleConn "c1" 2 0 none ()).1 (fun _ => 0) 3⟩

/-! ## LoadFullChatHistory: the caller and the handshake -/

theorem Caller.result_step (c : Caller) : c.step.result = c.result := by
  cases c <;> rfl

theorem Caller.result_advance (n : Nat) (c : Caller) : (c.advance n).result = c.result := by
  induction n generalizing c with
  | zero => rfl
  | succ k ih => rw [Caller.advance, ih, Caller.result_step]

theorem Caller.step_ne_selecting (c : Caller) : c.step ≠ .selecting := by
  cases c <;> simp [Caller.step]

theorem Caller.advance_eq_selecting (n : Nat) (c : Caller)
    (h : c.advance n = .selecting) : c = .selecting := by
  induction n generalizing c with
  | zero => exact h
  | succ k ih =>
    rw [Caller.advance] at h
    exact absurd (ih _ h) (Caller.step_ne_selecting c)

theorem Caller.quit_advance (n : Nat) (c : Caller) (h : c.quit = true) :
    (c.advance n).quit = true := by
  induction n generalizing c with
  | zero => exact h
  | succ k ih =>
    rw [Caller.advance]
    apply ih
    cases c <;> simp_all [Caller.quit, Caller.step]

theorem LoadFullChatHistory_err {σ : Type} (env : Env σ) (wac : Conn) (sched : Nat → Nat)
    (fuel : Nat) (jid : String) (chunkSize : Int) (pause : Duration)
    (handlers : Option (List Handler)) (w : σ) (hpos : 0 < chunkSize) :
    (LoadFullChatHistory env wac sched fuel jid chunkSize pause handlers w).err
      = callResult
          (runLoop (LoadFullChatHistory.body env sched jid chunkSize pause
            (handlers.getD wac.handler)) fuel ⟨"", true, .selecting, 0⟩ w).status
          (runLoop (LoadFullChatHistory.body env sched jid chunkSize pause
            (handlers.getD wac.handler)) fuel ⟨"", true, .selecting, 0⟩ w).final.caller ∧
    (LoadFullChatHistory env wac sched fuel jid chunkSize pause handlers w).task
      = some ((runLoop (LoadFullChatHistory.body env sched jid chunkSize pause
            (handlers.getD wac.handler)) fuel ⟨"", true, .selecting, 0⟩ w).status,
          (runLoop (LoadFullChatHistory.body env sched jid chunkSize pause
            (handlers.getD wac.handler)) fuel ⟨"", true, .selecting, 0⟩ w).final) := by
  have hnot : ¬ chunkSize ≤ 0 := by omega
  cases handlers <;> simp [LoadFullChatHistory, hnot]

theorem panicking_first_answer :
    (LoadFullChatHistory stringEnv sampleConn laggingCaller 4 "c1" 2 0 none ()).err
      = .error .interfaceConversion ∧
    (LoadFullChatHistory stringEnv sampleConn laggingCaller 4 "c1" 2 0 none ()).task
      = some (.panicked .interfaceConversion, ⟨"", true, .selecting, 1⟩) :=
  ⟨rfl, rfl⟩

/-! ## LoadFullChatHistory: pages fetched after the caller has left the select -/

theorem crawl_body_fetched_past_select {σ : Type} (env : Env σ) (sched : Nat → Nat)
    (jid : String) (chunkSize : Int) (pause : Duration) (hs : List Handler) (s : CrawlState)
    (w w1 : σ) (node : Option Node) (msgs : List WebMessageInfo)
    (hsel : s.caller ≠ .selecting)
    (hrun : (s.caller.advance (sched s.sync)).quit = false)
    (hq : env.query w (pageQuery jid s.beforeMsg "before" s.beforeMsgIsOwner chunkSize)
      = (.ok node, w1))
    (hd : decodeMessages node = .ok msgs) :
    LoadFullChatHistory.body env sched jid chunkSize pause hs s w
      = ⟨.panic .sendOnClosedChannel
          { s with caller := .returned s.caller.result, sync := s.sync + 2 },
          .query (pageQuery jid s.beforeMsg "before" s.beforeMsgIsOwner chunkSize) ::
            dispatchMessages env hs msgs, w1⟩ := by
  have hquit : ¬ (s.caller.advance (sched s.sync)).quit = true := by simp [hrun]
  have hres : ((s.caller.advance (sched s.sync)).advance (sched (s.sync + 1))).result
      = s.caller.result := by
    rw [Caller.result_advance, Caller.result_advance]
  cases hc : (s.caller.advance (sched s.sync)).advance (sched (s.sync + 1)) with
  | selecting =>
    exact absurd (Caller.advance_eq_selecting _ _ (Caller.advance_eq_selecting _ _ hc)) hsel
  | woken e =>
    rw [hc] at hres
    simp [LoadFullChatHistory.body, hquit, hq, hd, hc, hres]
  | quitSet e =>
    rw [hc] at hres
    simp [LoadFullChatHistory.body, hquit, hq, hd, hc, hres]
  | returned e =>
    rw [hc] at hres
    simp [LoadFullChatHistory.body, hquit, hq, hd, hc, hres]

theorem crawl_body_queries {σ : Type} (env : Env σ) (sched : Nat → Nat) (jid : String)
    (chunkSize : Int) (pause : Duration) (hs : List Handler) (s : CrawlState) (w : σ) :
    (queriesOf (LoadFullChatHistory.body env sched jid chunkSize pause hs s w).trace).length
      ≤ 1 := by
  unfold LoadFullChatHistory.body
  repeat' split
  all_goals simp [queriesOf, queriesOf_append, queriesOf_dispatchMessages]

theorem answering_next_woken {σ : Type} (env : Env σ) (sched : Nat → Nat) (jid : String)
    (chunkSize : Int) (pause : Duration) (hs : List Handler) (s s1 : CrawlState) (w : σ)
    (hans : ∀ (w0 : σ) (q : QueryArgs), ∃ node w1 msgs,
      env.query w0 q = (.ok node, w1) ∧ decodeMessages node = .ok msgs)
    (hflow : (LoadFullChatHistory.body env sched jid chunkSize pause hs s w).flow = .next s1) :
    s1.caller = .woken none := by
  obtain ⟨node, w1, msgs, hq, hd⟩ :=
    hans w (pageQuery jid s.beforeMsg "before" s.beforeMsgIsOwner chunkSize)
  by_cases hquit : (s.caller.advance (sched s.sync)).quit = true
  · simp [LoadFullChatHistory.body, hquit] at hflow
  · cases hc : (s.caller.advance (sched s.sync)).advance (sched (s.sync + 1)) with
    | selecting =>
      cases msgs with
      | nil => simp [LoadFullChatHistory.body, hquit, hq, hd, hc] at hflow
      | cons m0 rest =>
        cases hk : m0.Key with
        | none => simp [LoadFullChatHistory.body, hquit, hq, hd, hc, hk] at hflow
        | some k =>
          cases hid : k.Id with
          | none => simp [LoadFullChatHistory.body, hquit, hq, hd, hc, hk, hid] at hflow
          | some id =>
            simp [LoadFullChatHistory.body, hquit, hq, hd, hc, hk, hid] at hflow
            rw [← hflow]
    | woken e => simp [LoadFullChatHistory.body, hquit, hq, hd, hc] at hflow
    | quitSet e => simp [LoadFullChatHistory.body, hquit, hq, hd, hc] at hflow
    | returned e => simp [LoadFullChatHistory.body, hquit, hq, hd, hc] at hflow

theorem past_select_round {σ : Type} (env : Env σ) (sched : Nat → Nat) (jid : String)
    (chunkSize : Int) (pause : Duration) (hs : List Handler) (fuel : Nat) (s : CrawlState)
    (w : σ)
    (hans : ∀ (w0 : σ) (q : QueryArgs), ∃ node w1 msgs,
      env.query w0 q = (.ok node, w1) ∧ decodeMessages node = .ok msgs)
    (hsel : s.caller ≠ .selecting) :
    ((runLoop (LoadFullChatHistory.body env sched jid chunkSize pause hs) fuel s w).status
        ≠ .panicked .sendOnClosedChannel ∧
      (runLoop (LoadFullChatHistory.body env sched jid chunkSize pause hs) fuel s w).trace
        = []) ∨
    ((runLoop (LoadFullChatHistory.body env sched jid chunkSize pause hs) fuel s w).status
        = .panicked .sendOnClosedChannel ∧
      (queriesOf (runLoop (LoadFullChatHistory.body env sched jid chunkSize pause hs)
        fuel s w).trace).length = 1) := by
  cases fuel with
  | zero =>
    left
    exact ⟨by simp [runLoop], rfl⟩
  | succ f =>
    by_cases hquit : (s.caller.advance (sched s.sync)).quit = true
    · left
      have hb : LoadFullChatHistory.body env sched jid chunkSize pause hs s w
          = ⟨.stop ⟨s.beforeMsg, s.beforeMsgIsOwner, s.caller.advance (sched s.sync),
              s.sync + 1⟩, [], w⟩ := by
        simp [LoadFullChatHistory.body, hquit]
      rw [runLoop_stop _ f s _ w w [] hb]
      exact ⟨by simp, rfl⟩
    · right
      obtain ⟨node, w1, msgs, hq, hd⟩ :=
        hans w (pageQuery jid s.beforeMsg "before" s.beforeMsgIsOwner chunkSize)
      have hrun : (s.caller.advance (sched s.sync)).quit = false := by simpa using hquit
      rw [runLoop_panic _ f s _ w w1 _ .sendOnClosedChannel
        (crawl_body_fetched_past_select env sched jid chunkSize pause hs s w w1 node msgs hsel
          hrun hq hd)]
      exact ⟨rfl, by simp [queriesOf, queriesOf_dispatchMessages]⟩

theorem answering_run {σ : Type} (env : Env σ) (sched : Nat → Nat) (jid : String)
    (chunkSize : Int) (pause : Duration) (hs : List Handler) (fuel : Nat) (s : CrawlState)
    (w : σ)
    (hans : ∀ (w0 : σ) (q : QueryArgs), ∃ node w1 msgs,
      env.query w0 q = (.ok node, w1) ∧ decodeMessages node = .ok msgs) :
    (queriesOf (runLoop (LoadFullChatHistory.body env sched jid chunkSize pause hs)
      fuel s w).trace).length ≤ 2 ∧
    ((runLoop (LoadFullChatHistory.body env sched jid chunkSize pause hs) fuel s w).status
        ≠ .panicked .sendOnClosedChannel →
      (queriesOf (runLoop (LoadFullChatHistory.body env sched jid chunkSize pause hs)
        fuel s w).trace).length ≤ 1) := by
  cases fuel with
  | zero => simp [runLoop, queriesOf]
  | succ f =>
    have hone := crawl_body_queries env sched jid chunkSize pause hs s w
    rcases hbody : LoadFullChatHistory.body env sched jid chunkSize pause hs s w with
      ⟨flow, tr, w1⟩
    rw [hbody] at hone
    simp only at hone
    cases flow with
    | next s1 =>
      have hw : s1.caller = .woken none :=
        answering_next_woken env sched jid chunkSize pause hs s s1 w hans (by rw [hbody])
      have hsel : s1.caller ≠ .selecting := by rw [hw]; simp
      rw [runLoop_next _ f s s1 w w1 tr hbody]
      simp only [queriesOf_append, List.length_append]
      rcases past_select_round env sched jid chunkSize pause hs f s1 w1 hans hsel with
        ⟨hst, htr⟩ | ⟨hst, hlen⟩
      · rw [htr]
        simp only [queriesOf, List.length_nil]
        exact ⟨by omega, fun _ => by omega⟩
      · exact ⟨by omega, fun h => absurd hst h⟩
    | stop s1 =>
      rw [runLoop_stop _ f s s1 w w1 tr hbody]
      exact ⟨by simp only; omega, fun _ => hone⟩
    | panic p s1 =>
      rw [runLoop_panic _ f s s1 w w1 tr p hbody]
      exact ⟨by simp only; omega, fun _ => hone⟩

theorem scrollEnv_answers (w0 : Unit) (q : QueryArgs) :
    ∃ node w1 msgs, scrollEnv.query w0 q = (.ok node, w1) ∧ decodeMessages node = .ok msgs :=
  ⟨some (pageNode scrollPage), w0, scrollPage, rfl, decodeMessages_pageNode scrollPage⟩

theorem backfillEnv_answers (w0 : Unit) (q : QueryArgs) :
    ∃ node w1 msgs, backfillEnv.query w0 q = (.ok node, w1) ∧ decodeMessages node = .ok msgs := by
  by_cases h : q.messageId = ""
  · exact ⟨some (pageNode [record "m2", record "m1"]), w0, _, by simp [backfillEnv, h],
      decodeMessages_pageNode _⟩
  · exact ⟨some (pageNode []), w0, _, by simp [backfillEnv, h], decodeMessages_pageNode _⟩

/-- C12 (fails on the code): the send of line 179 is executed again for a later
fetched page.  Four records of history, chunkSize 2, a caller that has taken
the first signal and not yet set quit when the task reaches its second loop
check: the task fetches and dispatches the second page m2, m1 and executes the
send a second time; nobody receives it and the task dies of it.  In general
every page fetched after the caller has left the select is dispatched and
then ends in that second send. -/
theorem C12_send_is_executed_again_for_a_later_page :
    (LoadFullChatHistory twoPageEnv sampleConn laggingCaller 9 "c1" 2 0 none ()).trace
      = [.query ⟨"message", "c1", "", "before", "true", "", 2, 0⟩,
         .handle (.typed (.other "m4")) [⟨"default"⟩], .handle (.raw (record "m4")) [⟨"default"⟩],
         .handle (.typed (.other "m3")) [⟨"default"⟩], .handle (.raw (record "m3")) [⟨"default"⟩],
         .send, .sleep 0,
         .query ⟨"message", "c1", "m4", "before", "false", "", 2, 0⟩,
         .handle (.typed (.other "m2")) [⟨"default"⟩], .handle (.raw (record "m2")) [⟨"default"⟩],
         .handle (.typed (.other "m1")) [⟨"default"⟩],
         .handle (.raw (record "m1")) [⟨"default"⟩]] ∧
    (LoadFullChatHistory twoPageEnv sampleConn laggingCaller 9 "c1" 2 0 none ()).task
      = some (.panicked .sendOnClosedChannel, ⟨"m4", false, .returned none, 4⟩) ∧
    (∀ (σ : Type) (env : Env σ) (sched : Nat → Nat) (jid : String) (chunkSize : Int)
        (pause : Duration) (hs : List Handler) (s : CrawlState) (w w1 : σ)
        (node : Option Node) (msgs : List WebMessageInfo),
      s.caller ≠ .selecting →
      (s.caller.advance (sched s.sync)).quit = false →
      env.query w (pageQuery jid s.beforeMsg "before" s.beforeMsgIsOwner chunkSize)
        = (.ok node, w1) →
      decodeMessages node = .ok msgs →
      LoadFullChatHistory.body env sched jid chunkSize pause hs s w
        = ⟨.panic .sendOnClosedChannel
            { s with caller := .returned s.caller.result, sync := s.sync + 2 },
            .query (pageQuery jid s.beforeMsg "before" s.beforeMsgIsOwner chunkSize) ::
              dispatchMessages env hs msgs, w1⟩) :=
  ⟨rfl, rfl, fun _ env sched jid chunkSize pause hs s w w1 node msgs hsel hrun hq hd =>
    crawl_body_fetched_past_select env sched jid chunkSize pause hs s w w1 node msgs hsel hrun
      hq hd⟩

/-- C13 (fails on the code): the caller's return ends the crawl.  The server
returns a full page of five records to every query, so the history never
ends.  Under every schedule of the caller the crawl issues at most two
queries.  With a caller that has not yet set quit at the task's second loop
check the call has returned nil, the task fetches and dispatches the second
page and dies at the send of line 179; with a caller that has, the task stops
at that check after one page, although the next page was there. -/
theorem C13_crawl_does_not_outlive_the_caller_return :
    (∀ (sched : Nat → Nat) (fuel : Nat),
      (queriesOf (LoadFullChatHistory scrollEnv sampleConn sched fuel "c1" 5 0
        none ()).trace).length ≤ 2) ∧
    (LoadFullChatHistory scrollEnv sampleConn laggingCaller 9 "c1" 5 0 none ()).err
      = .ok none ∧
    (LoadFullChatHistory scrollEnv sampleConn laggingCaller 9 "c1" 5 0 none ()).task
      = some (.panicked .sendOnClosedChannel, ⟨"m5", false, .returned none, 4⟩) ∧
    queriesOf (LoadFullChatHistory scrollEnv sampleConn laggingCaller 9 "c1" 5 0 none ()).trace
      = [⟨"message", "c1", "", "before", "true", "", 5, 0⟩,
         ⟨"message", "c1", "m5", "before", "false", "", 5, 0⟩] ∧
    (eventsOf (LoadFullChatHistory scrollEnv sampleConn laggingCaller 9 "c1" 5 0
      none ()).trace).length = 20 ∧
    (LoadFullChatHistory scrollEnv sampleConn promptCaller 9 "c1" 5 0 none ()).task
      = some (.returned, ⟨"m5", false, .returned none, 3⟩) ∧
    queriesOf (LoadFullChatHistory scrollEnv sampleConn promptCaller 9 "c1" 5 0 none ()).trace
      = [⟨"message", "c1", "", "before", "true", "", 5, 0⟩] ∧
    (scrollEnv.query () ⟨"message", "c1", "m5", "before", "false", "", 5, 0⟩).1
      = .ok (some (pageNode scrollPage)) := by
  refine ⟨?_, rfl, rfl, rfl, rfl, rfl, rfl, rfl⟩
  intro sched fuel
  rw [LoadFullChatHistory_trace scrollEnv sampleConn sched fuel "c1" 5 0 none () (by decide)]
  exact (answering_run scrollEnv sched "c1" 5 0 _ fuel _ () scrollEnv_answers).1

/-- C18 (fails on the code): an empty page fetched after the first page does
not end the task by the break of line 181; the send of line 179 comes first
and kills it.  Two records of history, chunkSize 2, a caller that has not yet
set quit at the task's second loop check: the second query is answered with
an empty page and the task dies at the send.  Under no schedule does the task
return after having fetched that empty page; and in general an empty page
fetched after the caller has left the select ends the run in the panic. -/
theorem C18_empty_later_page_kills_the_task :
    (LoadFullChatHistory backfillEnv sampleConn laggingCaller 9 "c1" 2 0 none ()).trace
      = [.query ⟨"message", "c1", "", "before", "true", "", 2, 0⟩,
         .handle (.typed (.other "m2")) [⟨"default"⟩], .handle (.raw (record "m2")) [⟨"default"⟩],
         .handle (.typed (.other "m1")) [⟨"default"⟩], .handle (.raw (record "m1")) [⟨"default"⟩],
         .send, .sleep 0,
         .query ⟨"message", "c1", "m2", "before", "false", "", 2, 0⟩] ∧
    (backfillEnv.query () ⟨"message", "c1", "m2", "before", "false", "", 2, 0⟩).1
      = .ok (some (pageNode [])) ∧
    (LoadFullChatHistory backfillEnv sampleConn laggingCaller 9 "c1" 2 0 none ()).task
      = some (.panicked .sendOnClosedChannel, ⟨"m2", false, .returned none, 4⟩) ∧
    (∀ (sched : Nat → Nat) (fuel : Nat) (s : CrawlState),
      (LoadFullChatHistory backfillEnv sampleConn sched fuel "c1" 2 0 none ()).task
        = some (.returned, s) →
      (queriesOf (LoadFullChatHistory backfillEnv sampleConn sched fuel "c1" 2 0
        none ()).trace).length ≤ 1) ∧
    (∀ (σ : Type) (env : Env σ) (sched : Nat → Nat) (jid : String) (chunkSize : Int)
        (pause : Duration) (hs : List Handler) (fuel : Nat) (s : CrawlState) (w w1 : σ)
        (node : Option Node),
      s.caller ≠ .selecting →
      (s.caller.advance (sched s.sync)).quit = false →
      env.query w (pageQuery jid s.beforeMsg "before" s.beforeMsgIsOwner chunkSize)
        = (.ok node, w1) →
      decodeMessages node = .ok [] →
      runLoop (LoadFullChatHistory.body env sched jid chunkSize pause hs) (fuel + 1) s w
        = ⟨.panicked .sendOnClosedChannel,
            { s with caller := .returned s.caller.result, sync := s.sync + 2 },
            [.query (pageQuery jid s.beforeMsg "before" s.beforeMsgIsOwner chunkSize)],
            w1⟩) := by
  refine ⟨rfl, rfl, rfl, ?_, ?_⟩
  · intro sched fuel s htask
    have hst := (LoadFullChatHistory_err backfillEnv sampleConn sched fuel "c1" 2 0 none ()
      (by decide)).2
    rw [hst] at htask
    injection htask with htask
    have hret := congrArg Prod.fst htask
    simp only at hret
    rw [LoadFullChatHistory_trace backfillEnv sampleConn sched fuel "c1" 2 0 none ()
      (by decide)]
    exact (answering_run backfillEnv sched "c1" 2 0 _ fuel _ () backfillEnv_answers).2
      (by rw [hret]; simp)
  · intro σ env sched jid chunkSize pause hs fuel s w w1 node hsel hrun hq hd
    exact runLoop_panic _ fuel s _ w w1 _ .sendOnClosedChannel
      (crawl_body_fetched_past_select env sched jid chunkSize pause hs s w w1 node [] hsel
        hrun hq hd)

theorem empty_first_page_in_time :
    LoadFullChatHistory emptyEnv sampleConn laggingCaller 4 "c1" 3 0 none ()
      = ⟨.ok none, [.query ⟨"message", "c1", "", "before", "true", "", 3, 0⟩, .send], (),
          some (.returned, ⟨"", true, .woken none, 2⟩)⟩ :=
  rfl

theorem late_empty_first_page :
    (LoadFullChatHistory emptyEnv sampleConn timerDuringFirstQuery 4 "c1" 3 0 none ()).err
      = .ok (some timeoutChatFull) ∧
    (LoadFullChatHistory emptyEnv sampleConn timerDuringFirstQuery 4 "c1" 3 0 none ()).task
      = some (.panicked .sendOnClosedChannel,
          ⟨"", true, .returned (some timeoutChatFull), 2⟩) ∧
    (LoadFullChatHistory emptyEnv sampleConn timerDuringFirstQuery 4 "c1" 3 0 none ()).trace
      = [.query ⟨"message", "c1", "", "before", "true", "", 3, 0⟩] :=
  ⟨rfl, rfl, rfl⟩

end Whatsapp
